import Mathlib

/-!
Verification development for the snapchef recipe-resolution pipeline.

The definitions below are a shallow embedding of the Go source:
  - string helpers model the fragment of Go's `strings` package the code uses
    (ASCII fragment; all inputs considered are ASCII);
  - `Json`, `parseJsonVal`, `recipeOfJson`, `unmarshalRecipe` model the fragment
    of Go's `encoding/json` behaviour exercised by `recipe.Recipe.UnmarshalJSON`
    (src/unnamed/part_001, package recipe);
  - `geminiIsFoodImage` / `geminiGenerateRecipe` embed
    src/internal/platform/gemini/client.go, with the network call
    `model.GenerateContent` abstracted as an oracle function from the inputs to
    either an error or the response text (empty-candidate and non-text-part SDK
    outcomes are folded into the oracle's error);
  - `llmIsFoodImage` / `llmGenerateRecipe` embed the localllm client
    (src/unnamed/part_001, package localllm), with the HTTP transport of
    `GenerateContent` abstracted the same way;
  - `upload` embeds `Handler.Upload` (src/internal/api/handler.go:106-213),
    starting from the point where the image bytes are in memory; the store is
    explicit state, store/filesystem failures are oracle flags, and the list of
    provider/store calls made is returned as an event trace.
-/

/-! ## Go `strings` fragment (ASCII) -/

/-- Model of `strings.HasPrefix p` on rune lists: `listStartsWith p s` is true
iff `p` is an initial segment of `s`. -/
def listStartsWith : List Char → List Char → Bool
  | [], _ => true
  | _ :: _, [] => false
  | p :: ps, c :: cs => p = c && listStartsWith ps cs

/-- ASCII case folding of one character, the fragment of Go's `strings.ToLower`
used on the model responses considered here. -/
def asciiToLowerChar (c : Char) : Char :=
  if 'A' ≤ c && c ≤ 'Z' then Char.ofNat (c.toNat + 32) else c

/-- Model of `strings.ToLower` (ASCII fragment). -/
def asciiToLower (s : String) : String := ⟨s.data.map asciiToLowerChar⟩

/-- Whitespace set trimmed by `strings.TrimSpace` (ASCII fragment). -/
def isSpaceChar (c : Char) : Bool := c = ' ' || c = '\t' || c = '\n' || c = '\r'

/-- Drop leading whitespace from a rune list. -/
def dropLeadingWs : List Char → List Char
  | [] => []
  | c :: cs => if isSpaceChar c then dropLeadingWs cs else c :: cs

/-- Model of `strings.TrimSpace` (ASCII fragment). -/
def goTrimSpace (s : String) : String :=
  ⟨((dropLeadingWs ((dropLeadingWs s.data).reverse)).reverse)⟩

/-- Model of `strings.TrimPrefix s pre`: drop `pre` from the front of `s` when
present, otherwise return `s` unchanged. -/
def goDropStart (s p : String) : String :=
  if listStartsWith p.data s.data then ⟨s.data.drop p.data.length⟩ else s

/-- Model of `strings.TrimSuffix s suf`: drop `suf` from the end of `s` when
present, otherwise return `s` unchanged. -/
def goDropEnd (s p : String) : String :=
  if listStartsWith p.data.reverse s.data.reverse then
    ⟨(s.data.reverse.drop p.data.length).reverse⟩
  else s

/-- First index of `c` in a rune list, or `none`. -/
def listCharIndex (c : Char) : List Char → Option Nat
  | [] => none
  | x :: xs =>
    if x = c then some 0
    else match listCharIndex c xs with
      | none => none
      | some i => some (i + 1)

/-- First index of character `c` in `s`, modelling `strings.Index(s, c)` for a
one-character pattern (`none` models the `-1` result). -/
def charIndex (s : String) (c : Char) : Option Nat := listCharIndex c s.data

/-- Last index of character `c` in `s`, modelling `strings.LastIndex(s, c)` for
a one-character pattern. -/
def charLastIndex (s : String) (c : Char) : Option Nat :=
  match listCharIndex c s.data.reverse with
  | none => none
  | some i => some (s.data.length - 1 - i)

/-- Substring `s[a:b]` on rune lists, modelling Go slice syntax for the
in-bounds uses in the source. -/
def stringSlice (s : String) (a b : Nat) : String := ⟨(s.data.take b).drop a⟩

/-! ## The shared "no"-prefix derivation rule

`Handler.Upload` (handler.go:139) inlines
`!strings.HasPrefix(strings.ToLower(strings.TrimSpace(d)), "no")`; this is the
rule the spec calls the shared derivation. -/

/-- The "no"-prefix rule: trim whitespace, lowercase, test the prefix `"no"`;
`isFood` is the negation. -/
def deriveIsFood (description : String) : Bool :=
  !(listStartsWith "no".data (asciiToLower (goTrimSpace description)).data)

/-! ## `encoding/json` fragment for `recipe.Recipe`

`Recipe.UnmarshalJSON` (src/unnamed/part_001, package recipe) delegates to the
standard decoder through an alias struct and then lowercases the `cuisine` and
`dietary_preference` fields.  The decoder fragment modelled here covers the
observable behaviour on the inputs considered: JSON values are parsed into
`Json`; an object fills the known keys (unknown keys ignored, later duplicates
overwrite); any other non-null value is a decoding error returned by the inner
`json.Unmarshal`, which the hook passes through before touching `aux`.  A
top-level `null` is special: the inner `json.Unmarshal(data, &aux)` receives a
pointer to the pointer `aux`, a JSON null sets that pointer to nil and returns
no error, and the hook's next line `aux.Cuisine` then dereferences the nil
pointer — a runtime panic, not an error return.  The decoder therefore has
three outcomes: success, error, crash.  String escapes `\" \\ \/ \n \t \r`
are supported; other escapes are outside the modelled fragment. -/

/-- JSON values. Number literals are kept as their lexeme: every use site in
`Recipe` expects strings, so a number is always a decoding error there. -/
inductive Json where
  | null : Json
  | jbool (b : Bool) : Json
  | jnum (lit : String) : Json
  | jstr (s : String) : Json
  | jarr (elems : List Json) : Json
  | jobj (fields : List (String × Json)) : Json

/-- Skip JSON whitespace. -/
def skipWs : List Char → List Char
  | [] => []
  | c :: cs => if isSpaceChar c then skipWs cs else c :: cs

/-- Parse the body of a JSON string literal (opening quote already consumed),
returning the decoded characters and the rest of the input. -/
def parseStringBody : Nat → List Char → Option (List Char × List Char)
  | 0, _ => none
  | _ + 1, [] => none
  | fuel + 1, c :: cs =>
    if c = '"' then some ([], cs)
    else if c = '\\' then
      match cs with
      | [] => none
      | e :: cs2 =>
        let dec : Option Char :=
          if e = '"' then some '"'
          else if e = '\\' then some '\\'
          else if e = '/' then some '/'
          else if e = 'n' then some '\n'
          else if e = 't' then some '\t'
          else if e = 'r' then some '\r'
          else none
        match dec with
        | none => none
        | some d =>
          match parseStringBody fuel cs2 with
          | none => none
          | some (rest, rem) => some (d :: rest, rem)
    else
      match parseStringBody fuel cs with
      | none => none
      | some (rest, rem) => some (c :: rest, rem)

/-- Characters that may occur in a JSON number lexeme. -/
def isNumChar (c : Char) : Bool :=
  c.isDigit || c = '-' || c = '+' || c = '.' || c = 'e' || c = 'E'

/-- Take the longest leading run of number characters. -/
def takeNumChars : List Char → List Char × List Char
  | [] => ([], [])
  | c :: cs =>
    if isNumChar c then
      let (lit, rest) := takeNumChars cs
      (c :: lit, rest)
    else ([], c :: cs)

mutual

/-- Parse one JSON value from the input. -/
def parseJsonVal : Nat → List Char → Option (Json × List Char)
  | 0, _ => none
  | fuel + 1, input =>
    match skipWs input with
    | [] => none
    | c :: cs =>
      if c = '{' then
        parseObjFields fuel cs true
      else if c = '[' then
        parseArrElems fuel cs true
      else if c = '"' then
        match parseStringBody (cs.length + 1) cs with
        | none => none
        | some (body, rest) => some (.jstr ⟨body⟩, rest)
      else if c = 't' then
        match cs with
        | 'r' :: 'u' :: 'e' :: rest => some (.jbool true, rest)
        | _ => none
      else if c = 'f' then
        match cs with
        | 'a' :: 'l' :: 's' :: 'e' :: rest => some (.jbool false, rest)
        | _ => none
      else if c = 'n' then
        match cs with
        | 'u' :: 'l' :: 'l' :: rest => some (.null, rest)
        | _ => none
      else if isNumChar c then
        let (lit, rest) := takeNumChars (c :: cs)
        some (.jnum ⟨lit⟩, rest)
      else none

/-- Parse the fields of a JSON object; `first` is true just after `{`. -/
def parseObjFields : Nat → List Char → Bool → Option (Json × List Char)
  | 0, _, _ => none
  | fuel + 1, input, first =>
    match skipWs input with
    | [] => none
    | c :: cs =>
      if c = '}' && first then some (.jobj [], cs)
      else
        match skipWs input with
        | '"' :: cs2 =>
          match parseStringBody (cs2.length + 1) cs2 with
          | none => none
          | some (key, rest) =>
            match skipWs rest with
            | ':' :: rest2 =>
              match parseJsonVal fuel rest2 with
              | none => none
              | some (v, rest3) =>
                match skipWs rest3 with
                | ',' :: rest4 =>
                  match parseObjFields fuel rest4 false with
                  | some (.jobj fields, rest5) => some (.jobj ((⟨key⟩, v) :: fields), rest5)
                  | _ => none
                | '}' :: rest4 => some (.jobj [(⟨key⟩, v)], rest4)
                | _ => none
            | _ => none
        | _ => none

/-- Parse the elements of a JSON array; `first` is true just after `[`. -/
def parseArrElems : Nat → List Char → Bool → Option (Json × List Char)
  | 0, _, _ => none
  | fuel + 1, input, first =>
    match skipWs input with
    | [] => none
    | c :: cs =>
      if c = ']' && first then some (.jarr [], cs)
      else
        match parseJsonVal fuel input with
        | none => none
        | some (v, rest) =>
          match skipWs rest with
          | ',' :: rest2 =>
            match parseArrElems fuel rest2 false with
            | some (.jarr elems, rest3) => some (.jarr (v :: elems), rest3)
            | _ => none
          | ']' :: rest2 => some (.jarr [v], rest2)
          | _ => none

end

/-- Parse a complete JSON document: one value with only whitespace after it. -/
def parseTopJson (s : String) : Option Json :=
  match parseJsonVal (4 * (s.data.length + 1)) s.data with
  | none => none
  | some (j, rest) => if skipWs rest = [] then some j else none

/-! ## `recipe.Recipe` -/

/-- `recipe.Recipe` (src/unnamed/part_001, package recipe).  Go maps are
modelled as association lists; the zero value has empty strings and empty
collections. -/
structure Recipe where
  imageHash : String := ""
  title : String := ""
  ingredients : List (String × String) := []
  instructions : List String := []
  shoppingCart : List (String × String) := []
  cuisine : String := ""
  dietaryPreference : String := ""
  cookingTime : String := ""
  servings : String := ""
  imagePath : String := ""
deriving Repr, DecidableEq

/-- Insert-or-overwrite on an association list, modelling both Go map
assignment during decoding and the SQL upsert in the store. -/
def assocUpsert {α : Type} (l : List (String × α)) (k : String) (v : α) : List (String × α) :=
  match l with
  | [] => [(k, v)]
  | (k2, v2) :: rest => if k2 = k then (k, v) :: rest else (k2, v2) :: assocUpsert rest k v

/-- Lookup on an association list. -/
def assocLookup {α : Type} (l : List (String × α)) (k : String) : Option α :=
  match l with
  | [] => none
  | (k2, v) :: rest => if k2 = k then some v else assocLookup rest k

/-- Decode a JSON value into a `map[string]string` field (ingredients or
shopping cart): an object whose values are all strings; `null` leaves the
field unchanged. -/
def jsonToStringPairs : Json → Option (List (String × String))
  | .jobj fields =>
    fields.foldlM (fun acc kv =>
      match kv.2 with
      | .jstr s => some (assocUpsert acc kv.1 s)
      | _ => none) []
  | _ => none

/-- Decode a JSON value into a `[]string` field (instructions): an array whose
elements are all strings. -/
def jsonToStringList : Json → Option (List String)
  | .jarr elems =>
    elems.foldlM (fun acc e =>
      match e with
      | .jstr s => some (acc ++ [s])
      | _ => none) []
  | _ => none

/-- Set one decoded object field on a `Recipe`, following the struct tags of
`recipe.Recipe`; unknown keys are ignored, a JSON `null` leaves the field
unchanged, and a type mismatch is a decoding error. -/
def setRecipeField (r : Recipe) (kv : String × Json) : Except String Recipe :=
  match kv with
  | (_, .null) => .ok r
  | (k, v) =>
    if k = "image_hash" then
      match v with
      | .jstr s => .ok { r with imageHash := s }
      | _ => .error "cannot unmarshal value into string field image_hash"
    else if k = "title" then
      match v with
      | .jstr s => .ok { r with title := s }
      | _ => .error "cannot unmarshal value into string field title"
    else if k = "ingredients" then
      match jsonToStringPairs v with
      | some ps => .ok { r with ingredients := ps }
      | none => .error "cannot unmarshal value into map field ingredients"
    else if k = "instructions" then
      match jsonToStringList v with
      | some xs => .ok { r with instructions := xs }
      | none => .error "cannot unmarshal value into array field instructions"
    else if k = "shopping_cart" then
      match jsonToStringPairs v with
      | some ps => .ok { r with shoppingCart := ps }
      | none => .error "cannot unmarshal value into map field shopping_cart"
    else if k = "cuisine" then
      match v with
      | .jstr s => .ok { r with cuisine := s }
      | _ => .error "cannot unmarshal value into string field cuisine"
    else if k = "dietary_preference" then
      match v with
      | .jstr s => .ok { r with dietaryPreference := s }
      | _ => .error "cannot unmarshal value into string field dietary_preference"
    else if k = "cooking_time" then
      match v with
      | .jstr s => .ok { r with cookingTime := s }
      | _ => .error "cannot unmarshal value into string field cooking_time"
    else if k = "servings" then
      match v with
      | .jstr s => .ok { r with servings := s }
      | _ => .error "cannot unmarshal value into string field servings"
    else if k = "image_path" then
      match v with
      | .jstr s => .ok { r with imagePath := s }
      | _ => .error "cannot unmarshal value into string field image_path"
    else .ok r

/-- Outcome of decoding a `Recipe`: a decoded value, an error return, or a
runtime panic (`crash`) unwinding out of the hook. -/
inductive UnmarshalResult where
  | ok (r : Recipe) : UnmarshalResult
  | err (m : String) : UnmarshalResult
  | crash (m : String) : UnmarshalResult
deriving Repr, DecidableEq

/-- Decode a parsed JSON value through `Recipe.UnmarshalJSON`.  On an object,
the inner decode fills the fields and the hook then replaces `cuisine` and
`dietary_preference` by their lowercased forms (a missing key yields the empty
string, whose lowercase form is itself).  On any other non-null value the
inner `json.Unmarshal` returns a type error, which the hook returns before
touching `aux`.  On `null` the inner `json.Unmarshal(data, &aux)` sets the
pointer `aux` to nil and returns no error, and the hook's `aux.Cuisine`
dereference panics — modelled as `crash`. -/
def recipeOfJson (j : Json) : UnmarshalResult :=
  match j with
  | .null => .crash "runtime error: invalid memory address or nil pointer dereference"
  | .jobj fields =>
    match fields.foldlM setRecipeField {} with
    | .error e => .err e
    | .ok r =>
      .ok { r with cuisine := asciiToLower r.cuisine,
                   dietaryPreference := asciiToLower r.dietaryPreference }
  | _ => .err "cannot unmarshal JSON value into Recipe"

/-- Model of `json.Unmarshal(data, &r)` for `r : recipe.Recipe`, including the
custom `UnmarshalJSON` hook.  `json.Unmarshal` validates the input before
invoking the hook, so malformed input is a syntax-error return and the hook
(and its possible panic) is reached only on well-formed input. -/
def unmarshalRecipe (s : String) : UnmarshalResult :=
  match parseTopJson s with
  | none => .err "invalid JSON syntax"
  | some j => recipeOfJson j

/-! ## Errors

Go errors are modelled as a small inductive.  `fmt.Errorf` with a `%w` verb is
`wrapped`, a plain formatted error is `msg`, and the error values the claims
distinguish get their own constructors.  `errors.Is` against
`context.DeadlineExceeded` and `gemini.ErrNotFoodImage` is modelled by the
recursive predicates below, which traverse `wrapped` exactly as `errors.Is`
traverses a `%w` chain. -/

/-- Error values observable in the embedded code. -/
inductive ProvErr where
  | deadlineExceeded : ProvErr
  | notFoodImage : ProvErr
  | noJsonObject (raw : String) : ProvErr
  | unmarshalFailed (m raw : String) : ProvErr
  | llmUnmarshalFailed (m : String) : ProvErr
  | wrapped (p : String) (e : ProvErr) : ProvErr
  | msg (s : String) : ProvErr
deriving Repr, DecidableEq

/-- Model of `errors.Is(err, context.DeadlineExceeded)`. -/
def errIsDeadline : ProvErr → Bool
  | .deadlineExceeded => true
  | .wrapped _ e => errIsDeadline e
  | _ => false

/-- Model of `errors.Is(err, gemini.ErrNotFoodImage)`. -/
def errIsNotFood : ProvErr → Bool
  | .notFoodImage => true
  | .wrapped _ e => errIsNotFood e
  | _ => false

/-- Render an error as Go's `err.Error()` string. -/
def errString : ProvErr → String
  | .deadlineExceeded => "context deadline exceeded"
  | .notFoodImage => "image does not contain food"
  | .noJsonObject raw => "could not find JSON object in response: " ++ raw
  | .unmarshalFailed m raw => "failed to unmarshal recipe JSON: " ++ m ++ ". Raw response: " ++ raw
  | .llmUnmarshalFailed m => "failed to unmarshal recipe from response: " ++ m
  | .wrapped p e => p ++ ": " ++ errString e
  | .msg s => s

/-- Outcome of a provider `GenerateRecipe` call: a recipe, an error return, or
a runtime panic (`crash`) propagating out of the call. -/
inductive RecipeResult where
  | ok (r : Recipe) : RecipeResult
  | err (e : ProvErr) : RecipeResult
  | crash (m : String) : RecipeResult
deriving Repr, DecidableEq

/-! ## Image bytes and the content hash -/

/-- Raw image bytes. -/
abbrev ImageBytes := List Nat

/-- One hex digit. -/
def hexDigit (n : Nat) : Char :=
  if n < 10 then Char.ofNat (48 + n) else Char.ofNat (87 + n)

/-- Modelled from the spec: `gemini.GenerateImageHash`
(src/internal/platform/gemini/client.go:35-38) applies the standard library's
`crypto/sha256` — code outside this repository — and hex-encodes the digest.
Per spec §4.1 and §3 the hasher is a pure, deterministic content digest used
only as a cache key; it is modelled here as a deterministic hex digest of the
bytes.  No claim in this development depends on the digest algorithm beyond
determinism of the fingerprint. -/
def generateImageHash (imageData : ImageBytes) : String :=
  ⟨imageData.foldr (fun b acc => hexDigit ((b % 256) / 16) :: hexDigit (b % 16) :: acc) []⟩

/-! ## Gemini client (src/internal/platform/gemini/client.go)

The generative-model network call is abstracted as oracle functions giving, for
each input, either an error or the text of the first candidate part.  The SDK
outcomes "empty candidates" and "non-text part" are folded into the oracle's
error (the client turns them into errors immediately); the prompt construction
feeding the oracle is transport detail absorbed by passing the raw inputs. -/

/-- Oracle for the two Gemini `GenerateContent` calls: the food-check response
per image, and the recipe response per image and request parameters. -/
structure GeminiWire where
  classifyResp : ImageBytes → Except ProvErr String
  recipeResp : ImageBytes → String → String → Except ProvErr String

/-- `Client.IsFoodImage` (client.go:41-67): lowercase the trimmed response and
test the prefix "no"; the untrimmed response text is returned as the
description in both cases. -/
def geminiIsFoodImage (w : GeminiWire) (imageData : ImageBytes) :
    Except ProvErr (Bool × String) :=
  match w.classifyResp imageData with
  | .error e => .error e
  | .ok text =>
    let response := asciiToLower (goTrimSpace text)
    if listStartsWith "no".data response.data then .ok (false, text)
    else .ok (true, text)

/-- `Client.GenerateRecipe` (client.go:70-130): re-classify the image, return
`ErrNotFoodImage` when not food; otherwise extract the outermost brace span
from the response, unmarshal it, and overwrite `Cuisine` and
`DietaryPreference` with the request parameters.  A decoder panic would
propagate out of the call (modelled as `crash`); on this path it cannot occur,
because the decoded span always begins with the extracted opening brace and is
therefore never the JSON literal null (proved below as
`geminiGenerateRecipe_no_crash`). -/
def geminiGenerateRecipe (w : GeminiWire) (imageData : ImageBytes)
    (dietaryPreference cuisine : String) : RecipeResult :=
  match geminiIsFoodImage w imageData with
  | .error e => .err (.wrapped "failed to check if image is food" e)
  | .ok (isFood, _) =>
    if !isFood then .err .notFoodImage
    else
      match w.recipeResp imageData dietaryPreference cuisine with
      | .error e => .err e
      | .ok jsonString =>
        match charIndex jsonString '{', charLastIndex jsonString '}' with
        | some startIndex, some endIndex =>
          if startIndex > endIndex then .err (.noJsonObject jsonString)
          else
            let cleanJSON := stringSlice jsonString startIndex (endIndex + 1)
            match unmarshalRecipe cleanJSON with
            | .err m => .err (.unmarshalFailed m cleanJSON)
            | .crash m => .crash m
            | .ok r =>
              .ok { r with cuisine := cuisine, dietaryPreference := dietaryPreference }
        | _, _ => .err (.noJsonObject jsonString)

/-! ## Local LLM client (src/unnamed/part_001, package localllm)

`GenerateContent` performs the HTTP round trip; its request marshalling,
transport, status check, body decoding and empty-choices handling are absorbed
into an oracle giving either an error or `Choices[0].Message.Content`.  The
base64 encoding of the image is transport detail absorbed by passing the raw
bytes; the prompt string (with the dietary/cuisine sentences appended) is
absorbed by passing those parameters. -/

/-- Oracle for the local LLM `GenerateContent` calls. -/
structure LlmWire where
  classifyResp : ImageBytes → Except ProvErr String
  recipeResp : ImageBytes → String → String → Except ProvErr String

/-- Exact first-two-bytes test of the localllm client:
`len(responseText) > 2 && responseText[:2] == "No"`. -/
def llmRawNoTest (responseText : String) : Bool :=
  responseText.length > 2 &&
    (match responseText.data with
     | 'N' :: 'o' :: _ => true
     | _ => false)

/-- `Client.IsFoodImage` (localllm, part_001:172-185): the raw response is
tested byte-for-byte against the literal "No"; no trimming, no lowercasing. -/
def llmIsFoodImage (w : LlmWire) (imageData : ImageBytes) :
    Except ProvErr (Bool × String) :=
  match w.classifyResp imageData with
  | .error e => .error (.wrapped "failed to generate content" e)
  | .ok responseText =>
    if llmRawNoTest responseText then .ok (false, responseText)
    else .ok (true, responseText)

/-- `Client.GenerateRecipe` (localllm, part_001:187-213): strip a leading
"```json" and trailing "```", trim whitespace, and unmarshal directly — there
is no brace-pair extraction and no overwrite of the decoded fields.  A decoder
panic propagates out of the call (`crash`); unlike the Gemini path, nothing
here prevents the decoded text from being the JSON literal null. -/
def llmGenerateRecipe (w : LlmWire) (imageData : ImageBytes)
    (dietaryPreference cuisine : String) : RecipeResult :=
  match w.recipeResp imageData dietaryPreference cuisine with
  | .error e => .err (.wrapped "failed to generate content" e)
  | .ok responseText =>
    let cleaned1 := goDropStart responseText "```json"
    let cleaned2 := goDropEnd cleaned1 "```"
    let cleanedResponse := goTrimSpace cleaned2
    match unmarshalRecipe cleanedResponse with
    | .err m => .err (.llmUnmarshalFailed m)
    | .crash m => .crash m
    | .ok r => .ok r

/-! ## Store state (src/internal/recipe/store.go)

The PostgreSQL tables are explicit state: association lists keyed by image
hash.  `GetImageMetadata` maps an absent row to `("", nil)`
(store.go:156-166); `SaveImageMetadata` and `SaveRecipe` are single-key
upserts (ON CONFLICT DO UPDATE, store.go:135-136 and 170-171);
`GetRecipeByImageHash` maps an absent row to `(nil, nil)` (store.go:100-103).
Query/exec failures are modelled as oracle flags in `UploadDeps`. -/

/-- The two tables the upload pipeline touches. -/
structure StoreState where
  metadata : List (String × String)
  recipes : List (String × Recipe)
deriving Repr, DecidableEq

/-- `PostgresStore.GetImageMetadata` on the success path: absent row ⇒ "". -/
def getImageMetadata (s : StoreState) (imageHash : String) : String :=
  match assocLookup s.metadata imageHash with
  | none => ""
  | some d => d

/-- `PostgresStore.SaveImageMetadata` on the success path: upsert. -/
def saveImageMetadataState (s : StoreState) (imageHash description : String) : StoreState :=
  { s with metadata := assocUpsert s.metadata imageHash description }

/-- `PostgresStore.GetRecipeByImageHash` on the success path: absent row ⇒ none. -/
def getRecipeByImageHash (s : StoreState) (imageHash : String) : Option Recipe :=
  assocLookup s.recipes imageHash

/-- `PostgresStore.SaveRecipe` on the success path: upsert keyed by the
recipe's `ImageHash` field. -/
def saveRecipeState (s : StoreState) (r : Recipe) : StoreState :=
  { s with recipes := assocUpsert s.recipes r.imageHash r }

/-! ## `Handler.Upload` (src/internal/api/handler.go:62-214)

The embedding starts at handler.go:106, after multipart decoding and extension
validation (HTTP-framework territory), with the image bytes in memory.  The
model-provider methods and the failure behaviour of store and filesystem calls
are supplied as `UploadDeps`; each store flag is the outcome of the single call
the handler makes to that operation during one run.  The 45-second deadline is
not real time in the model: its expiry surfaces exactly as the Go code observes
it, as `context.DeadlineExceeded` errors from the calls in flight. -/

/-- External collaborators of one `Upload` run. -/
structure UploadDeps where
  isFoodImage : ImageBytes → Except ProvErr (Bool × String)
  generateRecipe : ImageBytes → String → String → Except ProvErr Recipe
  getMetadataErr : Option ProvErr
  saveMetadataErr : Option ProvErr
  getRecipeErr : Option ProvErr
  saveRecipeErr : Option ProvErr
  saveNonFood : Except String String
  saveImage : Except String String

/-- Calls the handler makes to the provider, the store and the image archive,
in order. -/
inductive CallEvent where
  | classifyCall : CallEvent
  | generateRecipeCall (dietaryPreference cuisine : String) : CallEvent
  | saveImageMetadataCall (imageHash description : String) : CallEvent
  | getRecipeCall (imageHash : String) : CallEvent
  | saveRecipeCall (r : Recipe) : CallEvent
  | saveNonFoodImageCall : CallEvent
deriving Repr, DecidableEq

/-- The HTTP response, by status and body; each constructor corresponds to one
`c.String`/`c.JSON` site in `Handler.Upload`. -/
inductive Response where
  | okRecipe (r : Recipe) : Response
  | okNotFood : Response
  | requestTimeout (m : String) : Response
  | internalError (m : String) : Response
  | badRequestNotFood : Response
deriving Repr, DecidableEq

/-- Result of one `Upload` run: response, post state, call trace, and the
`(isFood, description)` pair the handler computed (none when classification
never completed). -/
structure RunOut where
  resp : Response
  state : StoreState
  events : List CallEvent
  classification : Option (Bool × String)
deriving Repr, DecidableEq

/-- `Handler.Upload` from the not-food check on (handler.go:143-213): archive
and reject non-food (archive failure only logged, handler.go:146-149), then
recipe lookup, generation, image save, recipe save. -/
def uploadAfterClassify (deps : UploadDeps) (s : StoreState) (imageData : ImageBytes)
    (imageHash dietaryPreference cuisine : String) (isFood : Bool)
    (description : String) (ev : List CallEvent) : RunOut :=
  if !isFood then
    ⟨.okNotFood, s, ev ++ [.saveNonFoodImageCall], some (isFood, description)⟩
  else
    match deps.getRecipeErr with
    | some e =>
      if errIsDeadline e then
        ⟨.requestTimeout "Database query timed out after 2 seconds", s,
          ev ++ [.getRecipeCall imageHash], some (isFood, description)⟩
      else
        ⟨.internalError ("database error: " ++ errString e), s,
          ev ++ [.getRecipeCall imageHash], some (isFood, description)⟩
    | none =>
      match getRecipeByImageHash s imageHash with
      | some r =>
        ⟨.okRecipe r, s, ev ++ [.getRecipeCall imageHash], some (isFood, description)⟩
      | none =>
        let ev2 := ev ++ [.getRecipeCall imageHash,
                          .generateRecipeCall dietaryPreference cuisine]
        match deps.generateRecipe imageData dietaryPreference cuisine with
        | .error e =>
          if errIsDeadline e then
            ⟨.requestTimeout "Gemini API call timed out after 45 seconds", s, ev2,
              some (isFood, description)⟩
          else if errIsNotFood e then
            ⟨.badRequestNotFood, s, ev2, some (isFood, description)⟩
          else
            ⟨.internalError ("gemini err: " ++ errString e), s, ev2,
              some (isFood, description)⟩
        | .ok r0 =>
          match deps.saveImage with
          | .error m =>
            ⟨.internalError ("failed to save image: " ++ m), s, ev2,
              some (isFood, description)⟩
          | .ok imagePath =>
            let r1 := { r0 with imagePath := imagePath, imageHash := imageHash }
            let ev3 := ev2 ++ [.saveRecipeCall r1]
            match deps.saveRecipeErr with
            | some e =>
              if errIsDeadline e then
                ⟨.requestTimeout "Database save timed out after 2 seconds", s, ev3,
                  some (isFood, description)⟩
              else
                ⟨.internalError ("failed to save recipe: " ++ errString e), s, ev3,
                  some (isFood, description)⟩
            | none =>
              ⟨.okRecipe r1, saveRecipeState s r1, ev3, some (isFood, description)⟩

/-- `Handler.Upload` (handler.go:106-213): compute the fingerprint, read the
cached classification (a failure here is a generic 500 with no deadline check,
handler.go:114-117), on a miss call `IsFoodImage` (a failure here is a generic
500 with no deadline check, handler.go:126-129) and write the description
through (failure logged and swallowed, handler.go:132-135), on a hit re-derive
`isFood` by the "no"-prefix rule (handler.go:139), then continue with
`uploadAfterClassify`. -/
def upload (deps : UploadDeps) (s : StoreState) (imageData : ImageBytes)
    (dietaryPreference cuisine : String) : RunOut :=
  let imageHash := generateImageHash imageData
  match deps.getMetadataErr with
  | some e => ⟨.internalError ("database error: " ++ errString e), s, [], none⟩
  | none =>
    let imageDescription := getImageMetadata s imageHash
    if imageDescription = "" then
      match deps.isFoodImage imageData with
      | .error e =>
        ⟨.internalError ("gemini err: " ++ errString e), s, [.classifyCall], none⟩
      | .ok (isFood, geminiDescription) =>
        let ev0 := [CallEvent.classifyCall,
                    .saveImageMetadataCall imageHash geminiDescription]
        let s1 :=
          match deps.saveMetadataErr with
          | some _ => s
          | none => saveImageMetadataState s imageHash geminiDescription
        uploadAfterClassify deps s1 imageData imageHash dietaryPreference cuisine
          isFood geminiDescription ev0
    else
      let isFood := deriveIsFood imageDescription
      uploadAfterClassify deps s imageData imageHash dietaryPreference cuisine
        isFood imageDescription []

/-! ## Helper lemmas -/

/-- ASCII case folding is idempotent. -/
theorem asciiToLowerChar_idem (c : Char) :
    asciiToLowerChar (asciiToLowerChar c) = asciiToLowerChar c := by
  unfold asciiToLowerChar
  by_cases h : ('A' ≤ c && c ≤ 'Z') = true
  · rw [if_pos h]
    have hA : 65 ≤ c.toNat := by
      have := (Bool.and_eq_true _ _).mp h |>.1
      have h2 : 'A' ≤ c := of_decide_eq_true this
      exact h2
    have hZ : c.toNat ≤ 90 := by
      have := (Bool.and_eq_true _ _).mp h |>.2
      have h2 : c ≤ 'Z' := of_decide_eq_true this
      exact h2
    have hval : (Char.ofNat (c.toNat + 32)).toNat = c.toNat + 32 := by
      unfold Char.ofNat
      rw [dif_pos (Or.inl (by omega))]
      rfl
    have hnot : ¬('A' ≤ Char.ofNat (c.toNat + 32) ∧ Char.ofNat (c.toNat + 32) ≤ 'Z') := by
      intro ⟨_, hle⟩
      have : (Char.ofNat (c.toNat + 32)).toNat ≤ 90 := hle
      omega
    rw [if_neg]
    intro hcontra
    exact hnot ⟨of_decide_eq_true ((Bool.and_eq_true _ _).mp hcontra).1,
                of_decide_eq_true ((Bool.and_eq_true _ _).mp hcontra).2⟩
  · rw [if_neg h, if_neg h]

/-- ASCII lowercasing of strings is idempotent. -/
theorem asciiToLower_idem (s : String) : asciiToLower (asciiToLower s) = asciiToLower s := by
  unfold asciiToLower
  simp only [List.map_map]
  congr 1
  exact List.map_congr_left (fun c _ => by simp [Function.comp, asciiToLowerChar_idem])

/-- The cloud client's boolean agrees with the "no"-prefix rule applied to the
description it returns. -/
theorem geminiIsFoodImage_rule_consistent (w : GeminiWire) (img : ImageBytes)
    (b : Bool) (d : String) (h : geminiIsFoodImage w img = Except.ok (b, d)) :
    b = deriveIsFood d := by
  unfold geminiIsFoodImage at h
  cases hc : w.classifyResp img with
  | error e => rw [hc] at h; exact absurd h (by simp)
  | ok text =>
    rw [hc] at h
    simp only at h
    by_cases hp : listStartsWith "no".data (asciiToLower (goTrimSpace text)).data = true
    · rw [if_pos hp] at h
      cases h
      simp [deriveIsFood, hp]
    · rw [if_neg hp] at h
      cases h
      simp [deriveIsFood, Bool.not_eq_true _ ▸ hp]

/-- Upsert-then-lookup on the same key. -/
theorem assocLookup_upsert_self {α : Type} (l : List (String × α)) (k : String) (v : α) :
    assocLookup (assocUpsert l k v) k = some v := by
  induction l with
  | nil => simp [assocUpsert, assocLookup]
  | cons kv rest ih =>
    obtain ⟨k2, v2⟩ := kv
    unfold assocUpsert
    by_cases h : k2 = k
    · rw [if_pos h]; simp [assocLookup]
    · rw [if_neg h]; simp [assocLookup, h, ih]

/-- Any successfully unmarshalled `Recipe` has lowercase `cuisine` and
`dietaryPreference` (the `UnmarshalJSON` hook lowercases both). -/
theorem unmarshalRecipe_lower (s : String) (r : Recipe)
    (h : unmarshalRecipe s = UnmarshalResult.ok r) :
    asciiToLower r.cuisine = r.cuisine ∧
    asciiToLower r.dietaryPreference = r.dietaryPreference := by
  unfold unmarshalRecipe at h
  cases hp : parseTopJson s with
  | none => rw [hp] at h; exact absurd h (by simp)
  | some j =>
    rw [hp] at h
    simp only at h
    unfold recipeOfJson at h
    cases j with
    | null => exact absurd h (by simp)
    | jobj fields =>
      simp only at h
      cases hf : fields.foldlM setRecipeField {} with
      | error e => rw [hf] at h; exact absurd h (by simp)
      | ok r0 =>
        rw [hf] at h
        simp only at h
        cases h
        exact ⟨asciiToLower_idem _, asciiToLower_idem _⟩
    | jbool b => exact absurd h (by simp)
    | jnum l => exact absurd h (by simp)
    | jstr s2 => exact absurd h (by simp)
    | jarr es => exact absurd h (by simp)

/-- A successful `parseObjFields` always yields an object value. -/
theorem parseObjFields_jobj (fuel : Nat) (input : List Char) (first : Bool)
    (j : Json) (rest : List Char)
    (h : parseObjFields fuel input first = some (j, rest)) :
    ∃ fields, j = Json.jobj fields := by
  cases fuel with
  | zero => exact absurd h (by simp [parseObjFields])
  | succ k =>
    unfold parseObjFields at h
    iterate 16 (all_goals (try split at h))
    all_goals simp_all
    all_goals exact ⟨_, h.1.symm⟩

/-- `unmarshalRecipe` crashes only when the input parses to the JSON literal
null (the decoder panic site). -/
theorem unmarshalRecipe_crash_null (s m : String)
    (h : unmarshalRecipe s = UnmarshalResult.crash m) :
    parseTopJson s = some Json.null := by
  unfold unmarshalRecipe at h
  cases hp : parseTopJson s with
  | none => rw [hp] at h; exact absurd h (by simp)
  | some j =>
    rw [hp] at h
    simp only at h
    unfold recipeOfJson at h
    cases j with
    | null => rfl
    | jobj fields =>
      simp only at h
      cases hf : fields.foldlM setRecipeField {} with
      | error e => rw [hf] at h; exact absurd h (by simp)
      | ok r0 => rw [hf] at h; exact absurd h (by simp)
    | jbool b => exact absurd h (by simp)
    | jnum l => exact absurd h (by simp)
    | jstr s2 => exact absurd h (by simp)
    | jarr es => exact absurd h (by simp)

/-- A value whose input begins with an opening brace parses, when it parses at
all, to an object. -/
theorem parseJsonVal_brace (fuel : Nat) (cs : List Char) (j : Json)
    (rest : List Char)
    (h : parseJsonVal fuel ('\x7b' :: cs) = some (j, rest)) :
    ∃ fields, j = Json.jobj fields := by
  cases fuel with
  | zero => exact absurd h (by simp [parseJsonVal])
  | succ k =>
    have hred : parseJsonVal (k + 1) ('\x7b' :: cs) = parseObjFields k cs true := rfl
    rw [hred] at h
    exact parseObjFields_jobj k cs true j rest h

/-- An input whose first character is an opening brace never unmarshals to the
JSON literal null, so the decoder cannot panic on it. -/
theorem unmarshalRecipe_brace_no_crash (s : String) (c0 : List Char)
    (hdata : s.data = '\x7b' :: c0) (m : String) :
    unmarshalRecipe s ≠ UnmarshalResult.crash m := by
  intro hc
  have hnull := unmarshalRecipe_crash_null s m hc
  unfold parseTopJson at hnull
  rw [hdata] at hnull
  cases hv : parseJsonVal (4 * (('\x7b' :: c0).length + 1)) ('\x7b' :: c0) with
  | none =>
    try rw [hv] at hnull
    exact absurd hnull (by simp)
  | some p =>
    obtain ⟨j2, rest2⟩ := p
    try rw [hv] at hnull
    obtain ⟨fields, hf⟩ := parseJsonVal_brace _ c0 j2 rest2 hv
    subst hf
    simp only at hnull
    by_cases hw : skipWs rest2 = []
    · rw [if_pos hw] at hnull
      exact absurd hnull (by simp)
    · rw [if_neg hw] at hnull
      exact absurd hnull (by simp)

/-- Dropping to the first occurrence of a character exposes it at the head. -/
theorem listCharIndex_drop (c : Char) (l : List Char) (i : Nat)
    (h : listCharIndex c l = some i) : ∃ t, List.drop i l = c :: t := by
  induction l generalizing i with
  | nil => exact absurd h (by simp [listCharIndex])
  | cons x xs ih =>
    unfold listCharIndex at h
    by_cases hx : x = c
    · rw [if_pos hx] at h
      cases h
      exact ⟨xs, by rw [hx]; simp⟩
    · rw [if_neg hx] at h
      cases hr : listCharIndex c xs with
      | none => rw [hr] at h; exact absurd h (by simp)
      | some i0 =>
        rw [hr] at h
        simp only [Option.some.injEq] at h
        subst h
        obtain ⟨t, ht⟩ := ih i0 hr
        exact ⟨t, by simpa using ht⟩

/-- The brace span the Gemini client hands to the decoder begins with the
opening brace it located, so by `unmarshalRecipe_brace_no_crash` the decode
cannot panic: the Gemini client never crashes. -/
theorem geminiGenerateRecipe_no_crash (w : GeminiWire) (imageData : ImageBytes)
    (dietaryPreference cuisine m : String) :
    geminiGenerateRecipe w imageData dietaryPreference cuisine
      ≠ RecipeResult.crash m := by
  intro h
  unfold geminiGenerateRecipe at h
  cases hf : geminiIsFoodImage w imageData with
  | error e => rw [hf] at h; exact absurd h (by simp)
  | ok p =>
    obtain ⟨b, t⟩ := p
    rw [hf] at h
    simp only at h
    cases b with
    | false => simp at h
    | true =>
      simp only [Bool.not_true, Bool.false_eq_true, if_false] at h
      cases hr : w.recipeResp imageData dietaryPreference cuisine with
      | error e => rw [hr] at h; exact absurd h (by simp)
      | ok raw =>
        rw [hr] at h
        simp only at h
        cases hi : charIndex raw '\x7b' with
        | none => rw [hi] at h; exact absurd h (by simp)
        | some si =>
          rw [hi] at h
          cases hj : charLastIndex raw '\x7d' with
          | none => rw [hj] at h; exact absurd h (by simp)
          | some ei =>
            rw [hj] at h
            simp only at h
            by_cases hgt : si > ei
            · rw [if_pos hgt] at h; exact absurd h (by simp)
            · rw [if_neg hgt] at h
              cases hu : unmarshalRecipe (stringSlice raw si (ei + 1)) with
              | err m2 => rw [hu] at h; exact absurd h (by simp)
              | ok r0 => rw [hu] at h; exact absurd h (by simp)
              | crash m2 =>
                obtain ⟨t0, ht0⟩ := listCharIndex_drop '\x7b' raw.data si hi
                refine unmarshalRecipe_brace_no_crash (stringSlice raw si (ei + 1))
                  (List.take (ei - si) t0) ?_ m2 hu
                show List.drop si (List.take (ei + 1) raw.data)
                  = '\x7b' :: List.take (ei - si) t0
                rw [List.drop_take (ei + 1) si raw.data, ht0]
                have hsum : ei + 1 - si = (ei - si) + 1 := by omega
                rw [hsum]
                rfl

/-! ## Claim C1 -/

/-- C1, counterexample.  The claim asserts that both providers' `classify`
booleans equal the shared trim/lowercase/"no"-prefix rule applied to the
returned description.  For the local LLM provider this fails: on the response
"NO a cat on a mat" (the all-caps form its own prompt requests) the client
returns `isFood = true`, while the shared rule derives `false`. -/
theorem C1_counterexample :
    llmIsFoodImage
        ⟨fun _ => Except.ok "NO a cat on a mat",
         fun _ _ _ => Except.error (ProvErr.msg "unused")⟩ [0]
      = Except.ok (true, "NO a cat on a mat")
    ∧ deriveIsFood "NO a cat on a mat" = false := by
  exact ⟨rfl, rfl⟩

/-- C1, amended.  The cloud (Gemini) provider's boolean always equals the
shared rule applied to the description it returns; the local LLM provider
instead returns `isFood = false` exactly when the raw response is longer than
two bytes and starts with the exact bytes "No" — a test that can disagree with
the shared rule (no trimming, no case folding, never false on the exact
two-byte response "No"). -/
theorem C1_amended :
    (∀ (w : GeminiWire) (img : ImageBytes) (b : Bool) (d : String),
        geminiIsFoodImage w img = Except.ok (b, d) → b = deriveIsFood d)
    ∧ (∀ (w : LlmWire) (img : ImageBytes) (b : Bool) (d : String),
        llmIsFoodImage w img = Except.ok (b, d) → b = !llmRawNoTest d) := by
  constructor
  · exact fun w img b d h => geminiIsFoodImage_rule_consistent w img b d h
  · intro w img b d h
    unfold llmIsFoodImage at h
    cases hc : w.classifyResp img with
    | error e => rw [hc] at h; exact absurd h (by simp)
    | ok text =>
      rw [hc] at h
      simp only at h
      by_cases hp : llmRawNoTest text = true
      · rw [if_pos hp] at h
        cases h
        simp [hp]
      · rw [if_neg hp] at h
        cases h
        simp [Bool.not_eq_true _ ▸ hp]

/-- C1, witness for the amended claim at concrete inputs. -/
theorem C1_amended_witness :
    true = deriveIsFood "A tasty dish" ∧ false = !llmRawNoTest "Not food" := by
  constructor
  · exact C1_amended.1
      ⟨fun _ => Except.ok "A tasty dish", fun _ _ _ => Except.error (ProvErr.msg "u")⟩
      [0] true "A tasty dish" rfl
  · exact C1_amended.2
      ⟨fun _ => Except.ok "Not food", fun _ _ _ => Except.error (ProvErr.msg "u")⟩
      [0] false "Not food" rfl

/-! ## Claim C10 -/

/-- C10.  The cloud provider's `GenerateRecipe` re-classifies the image first
and, whenever that classification yields `isFood = false`, returns the
sentinel `ErrNotFoodImage` and no recipe value. -/
theorem C10_generateRecipe_notFood (w : GeminiWire) (img : ImageBytes)
    (dietaryPreference cuisine : String) (d : String)
    (h : geminiIsFoodImage w img = Except.ok (false, d)) :
    geminiGenerateRecipe w img dietaryPreference cuisine
      = RecipeResult.err ProvErr.notFoodImage := by
  unfold geminiGenerateRecipe
  rw [h]
  simp

/-- C10, witness at a concrete non-food response. -/
theorem C10_generateRecipe_notFood_witness :
    geminiGenerateRecipe
        ⟨fun _ => Except.ok "NO an empty desk",
         fun _ _ _ => Except.ok "unused"⟩ [3, 4] "vegan" "thai"
      = RecipeResult.err ProvErr.notFoodImage :=
  C10_generateRecipe_notFood
    ⟨fun _ => Except.ok "NO an empty desk", fun _ _ _ => Except.ok "unused"⟩
    [3, 4] "vegan" "thai" "NO an empty desk" rfl

/-- When recipe generation fails, the recipe phase leaves the recipes table
unchanged and never attempts `SaveRecipe`. -/
theorem uploadAfterClassify_no_persist (deps : UploadDeps) (s : StoreState)
    (imageData : ImageBytes) (imageHash dietaryPreference cuisine : String)
    (isFood : Bool) (description : String) (ev : List CallEvent) (e : ProvErr)
    (hgen : deps.generateRecipe imageData dietaryPreference cuisine = Except.error e)
    (hev : ∀ r, CallEvent.saveRecipeCall r ∉ ev) :
    (uploadAfterClassify deps s imageData imageHash dietaryPreference cuisine
        isFood description ev).state.recipes = s.recipes
    ∧ ∀ r, CallEvent.saveRecipeCall r ∉
        (uploadAfterClassify deps s imageData imageHash dietaryPreference cuisine
          isFood description ev).events := by
  unfold uploadAfterClassify
  cases isFood with
  | false =>
    refine ⟨rfl, ?_⟩
    intro r
    simp [List.mem_append, hev r]
  | true =>
    simp only [Bool.not_true, Bool.false_eq_true, if_false]
    cases hge : deps.getRecipeErr with
    | some e2 =>
      by_cases hd : errIsDeadline e2 = true
      · simp only [hd, if_true]
        exact ⟨by trivial, fun r => by simp [List.mem_append, hev r]⟩
      · simp only [hd, Bool.false_eq_true, if_false]
        exact ⟨by trivial, fun r => by simp [List.mem_append, hev r]⟩
    | none =>
      cases hlk : getRecipeByImageHash s imageHash with
      | some r2 =>
        exact ⟨by trivial, fun r => by simp [List.mem_append, hev r]⟩
      | none =>
        simp only [hgen]
        by_cases hd : errIsDeadline e = true
        · simp only [hd, if_true]
          exact ⟨by trivial, fun r => by simp [List.mem_append, hev r]⟩
        · simp only [hd, Bool.false_eq_true, if_false]
          by_cases hn : errIsNotFood e = true
          · simp only [hn, if_true]
            exact ⟨by trivial, fun r => by simp [List.mem_append, hev r]⟩
          · simp only [hn, Bool.false_eq_true, if_false]
            exact ⟨by trivial, fun r => by simp [List.mem_append, hev r]⟩

/-! ## Claim C5 -/

/-- C5, counterexample.  The claim asserts every provider fails with the
distinct malformed-output kind on a brace-free response — explicitly "not a
crash".  The local LLM provider detects no brace pair at all, and on the
response "null" (no brace pair) its direct `json.Unmarshal` invokes
`Recipe.UnmarshalJSON`, whose inner unmarshal sets the `aux` pointer to nil so
that `aux.Cuisine` dereferences a nil pointer: the call panics instead of
returning the distinct error kind. -/
theorem C5_counterexample :
    charIndex "null" '{' = none
    ∧ charLastIndex "null" '}' = none
    ∧ llmGenerateRecipe
        ⟨fun _ => Except.error (ProvErr.msg "u"), fun _ _ _ => Except.ok "null"⟩
        [0] "vegan" "thai"
      = RecipeResult.crash
          "runtime error: invalid memory address or nil pointer dereference" := by
  exact ⟨by trivial, by trivial, by trivial⟩

/-- C5, amended.  For the cloud (Gemini) provider the claim holds: a food
image whose recipe response contains no brace yields the distinct
could-not-find-JSON-object error; and whenever recipe generation fails for any
reason, the pipeline persists no recipe (the recipes table is unchanged and
`SaveRecipe` is never attempted).  The local LLM provider performs no
brace-pair detection: it unmarshals the fence-stripped response directly, so a
brace-free response yields either a generic unmarshal error (e.g. on "hello")
or a nil-pointer panic when the stripped response is the JSON literal null
(see the counterexample). -/
theorem C5_amended :
    (∀ (w : GeminiWire) (img : ImageBytes) (d c t raw : String),
        geminiIsFoodImage w img = Except.ok (true, t) →
        w.recipeResp img d c = Except.ok raw →
        charIndex raw '{' = none → charLastIndex raw '}' = none →
        geminiGenerateRecipe w img d c = RecipeResult.err (ProvErr.noJsonObject raw))
    ∧ (∀ (w : LlmWire) (img : ImageBytes) (d c : String),
        w.recipeResp img d c = Except.ok "null" →
        llmGenerateRecipe w img d c = RecipeResult.crash
          "runtime error: invalid memory address or nil pointer dereference")
    ∧ (∀ (w : LlmWire) (img : ImageBytes) (d c : String),
        w.recipeResp img d c = Except.ok "hello" →
        llmGenerateRecipe w img d c
          = RecipeResult.err (ProvErr.llmUnmarshalFailed "invalid JSON syntax"))
    ∧ (∀ (deps : UploadDeps) (s : StoreState) (img : ImageBytes) (d c : String)
          (e : ProvErr),
        deps.generateRecipe img d c = Except.error e →
        (upload deps s img d c).state.recipes = s.recipes
        ∧ ∀ r, CallEvent.saveRecipeCall r ∉ (upload deps s img d c).events) := by
  refine ⟨?_, ?_, ?_, ?_⟩
  · intro w img d c t raw hfood hresp hi1 hi2
    unfold geminiGenerateRecipe
    rw [hfood]
    simp only [Bool.not_true, Bool.false_eq_true, if_false]
    rw [hresp]
    simp only [hi1, hi2]
  · intro w img d c hresp
    unfold llmGenerateRecipe
    rw [hresp]
    rfl
  · intro w img d c hresp
    unfold llmGenerateRecipe
    rw [hresp]
    rfl
  · intro deps s img d c e hgen
    unfold upload
    cases hme : deps.getMetadataErr with
    | some e2 => exact ⟨rfl, fun r => by simp⟩
    | none =>
      simp only
      by_cases hmiss : getImageMetadata s (generateImageHash img) = ""
      · rw [if_pos hmiss]
        cases hcl : deps.isFoodImage img with
        | error e3 => exact ⟨rfl, fun r => by simp⟩
        | ok p =>
          obtain ⟨b, desc⟩ := p
          simp only
          cases hsm : deps.saveMetadataErr with
          | some e4 =>
            exact uploadAfterClassify_no_persist deps s img (generateImageHash img)
              d c b desc _ e hgen (fun r => by simp)
          | none =>
            have h2 := uploadAfterClassify_no_persist deps
              (saveImageMetadataState s (generateImageHash img) desc) img
              (generateImageHash img) d c b desc
              [CallEvent.classifyCall,
               CallEvent.saveImageMetadataCall (generateImageHash img) desc] e hgen
              (fun r => by simp)
            exact ⟨h2.1, h2.2⟩
      · rw [if_neg hmiss]
        exact uploadAfterClassify_no_persist deps s img (generateImageHash img)
          d c _ _ [] e hgen (fun r => by simp)

/-- C5, witness for the amended claim at concrete inputs. -/
theorem C5_amended_witness :
    geminiGenerateRecipe
        ⟨fun _ => Except.ok "A fresh salad", fun _ _ _ => Except.ok "alas, no json here"⟩
        [7] "vegan" "thai"
      = RecipeResult.err (ProvErr.noJsonObject "alas, no json here")
    ∧ llmGenerateRecipe
        ⟨fun _ => Except.error (ProvErr.msg "u"), fun _ _ _ => Except.ok "null"⟩
        [7] "vegan" "thai"
      = RecipeResult.crash
          "runtime error: invalid memory address or nil pointer dereference"
    ∧ llmGenerateRecipe
        ⟨fun _ => Except.error (ProvErr.msg "u"), fun _ _ _ => Except.ok "hello"⟩
        [7] "vegan" "thai"
      = RecipeResult.err (ProvErr.llmUnmarshalFailed "invalid JSON syntax")
    ∧ ((upload
          { isFoodImage := fun _ => Except.ok (true, "A fresh salad"),
            generateRecipe := fun _ _ _ => Except.error (ProvErr.msg "model down"),
            getMetadataErr := none, saveMetadataErr := none,
            getRecipeErr := none, saveRecipeErr := none,
            saveNonFood := Except.ok "p", saveImage := Except.ok "p" }
          ⟨[], []⟩ [7] "vegan" "thai").state.recipes = ([] : List (String × Recipe))
        ∧ ∀ r, CallEvent.saveRecipeCall r ∉
            (upload
              { isFoodImage := fun _ => Except.ok (true, "A fresh salad"),
                generateRecipe := fun _ _ _ => Except.error (ProvErr.msg "model down"),
                getMetadataErr := none, saveMetadataErr := none,
                getRecipeErr := none, saveRecipeErr := none,
                saveNonFood := Except.ok "p", saveImage := Except.ok "p" }
              ⟨[], []⟩ [7] "vegan" "thai").events) := by
  refine ⟨?_, ?_, ?_, ?_⟩
  · exact C5_amended.1
      ⟨fun _ => Except.ok "A fresh salad", fun _ _ _ => Except.ok "alas, no json here"⟩
      [7] "vegan" "thai" "A fresh salad" "alas, no json here" rfl rfl rfl rfl
  · exact C5_amended.2.1
      ⟨fun _ => Except.error (ProvErr.msg "u"), fun _ _ _ => Except.ok "null"⟩
      [7] "vegan" "thai" rfl
  · exact C5_amended.2.2.1
      ⟨fun _ => Except.error (ProvErr.msg "u"), fun _ _ _ => Except.ok "hello"⟩
      [7] "vegan" "thai" rfl
  · exact C5_amended.2.2.2
      { isFoodImage := fun _ => Except.ok (true, "A fresh salad"),
        generateRecipe := fun _ _ _ => Except.error (ProvErr.msg "model down"),
        getMetadataErr := none, saveMetadataErr := none,
        getRecipeErr := none, saveRecipeErr := none,
        saveNonFood := Except.ok "p", saveImage := Except.ok "p" }
      ⟨[], []⟩ [7] "vegan" "thai" (ProvErr.msg "model down") rfl

/-! ## Claim C6 -/

/-- C6, counterexample.  The claim asserts cuisine and dietaryPreference are
lowercased at construction regardless of the request parameters' casing.  The
Gemini provider overwrites both fields with the request parameters verbatim
after unmarshalling (client.go:126-127): with request cuisine "Italian" and
dietary preference "VeGan" the produced recipe keeps those casings. -/
theorem C6_counterexample :
    geminiGenerateRecipe
        ⟨fun _ => Except.ok "A plate of tacos",
         fun _ _ _ => Except.ok "\x7b\"cuisine\":\"mexican\"\x7d"⟩
        [1] "VeGan" "Italian"
      = RecipeResult.ok { cuisine := "Italian", dietaryPreference := "VeGan" }
    ∧ asciiToLower "Italian" ≠ "Italian" := by
  exact ⟨rfl, by decide⟩

/-- C6, amended.  Recipes constructed by JSON unmarshalling do have lowercase
cuisine and dietaryPreference (the `UnmarshalJSON` hook lowercases both), and
the local LLM provider returns the unmarshalled recipe unchanged, so its
output is lowercase-normalized; but the Gemini provider then overwrites both
fields with the request's `cuisine`/`dietaryPreference` parameters verbatim,
so on that path the casing of the request parameters survives. -/
theorem C6_amended :
    (∀ (s : String) (r : Recipe), unmarshalRecipe s = UnmarshalResult.ok r →
        asciiToLower r.cuisine = r.cuisine
        ∧ asciiToLower r.dietaryPreference = r.dietaryPreference)
    ∧ (∀ (w : GeminiWire) (img : ImageBytes) (d c : String) (r : Recipe),
        geminiGenerateRecipe w img d c = RecipeResult.ok r →
        r.cuisine = c ∧ r.dietaryPreference = d)
    ∧ (∀ (w : LlmWire) (img : ImageBytes) (d c : String) (r : Recipe),
        llmGenerateRecipe w img d c = RecipeResult.ok r →
        asciiToLower r.cuisine = r.cuisine
        ∧ asciiToLower r.dietaryPreference = r.dietaryPreference) := by
  refine ⟨fun s r h => unmarshalRecipe_lower s r h, ?_, ?_⟩
  · intro w img d c r h
    unfold geminiGenerateRecipe at h
    cases hf : geminiIsFoodImage w img with
    | error e => rw [hf] at h; exact absurd h (by simp)
    | ok p =>
      obtain ⟨b, t⟩ := p
      rw [hf] at h
      simp only at h
      cases b with
      | false => simp at h
      | true =>
        simp only [Bool.not_true, Bool.false_eq_true, if_false] at h
        cases hr : w.recipeResp img d c with
        | error e => rw [hr] at h; exact absurd h (by simp)
        | ok raw =>
          rw [hr] at h
          simp only at h
          cases hi : charIndex raw '{' with
          | none => rw [hi] at h; exact absurd h (by simp)
          | some si =>
            rw [hi] at h
            cases hj : charLastIndex raw '}' with
            | none => rw [hj] at h; exact absurd h (by simp)
            | some ei =>
              rw [hj] at h
              simp only at h
              by_cases hgt : si > ei
              · rw [if_pos hgt] at h; exact absurd h (by simp)
              · rw [if_neg hgt] at h
                cases hu : unmarshalRecipe (stringSlice raw si (ei + 1)) with
                | err m => rw [hu] at h; exact absurd h (by simp)
                | crash m => rw [hu] at h; exact absurd h (by simp)
                | ok r0 =>
                  rw [hu] at h
                  simp only [RecipeResult.ok.injEq] at h
                  subst h
                  exact ⟨rfl, rfl⟩
  · intro w img d c r h
    unfold llmGenerateRecipe at h
    cases hr : w.recipeResp img d c with
    | error e => rw [hr] at h; exact absurd h (by simp)
    | ok responseText =>
      rw [hr] at h
      simp only at h
      cases hu : unmarshalRecipe
          (goTrimSpace (goDropEnd (goDropStart responseText "```json") "```")) with
      | err m => rw [hu] at h; exact absurd h (by simp)
      | crash m => rw [hu] at h; exact absurd h (by simp)
      | ok r0 =>
        rw [hu] at h
        simp only [RecipeResult.ok.injEq] at h
        subst h
        exact unmarshalRecipe_lower _ r0 hu

/-- C6, witness for the amended claim at concrete inputs. -/
theorem C6_amended_witness :
    (asciiToLower (Recipe.cuisine { cuisine := "tacos" })
        = Recipe.cuisine { cuisine := "tacos" }
      ∧ asciiToLower (Recipe.dietaryPreference { cuisine := "tacos" })
        = Recipe.dietaryPreference { cuisine := "tacos" })
    ∧ (Recipe.cuisine { cuisine := "Thai", dietaryPreference := "KETO" } = "Thai"
      ∧ Recipe.dietaryPreference { cuisine := "Thai", dietaryPreference := "KETO" } = "KETO")
    ∧ (asciiToLower (Recipe.cuisine { cuisine := "mexican" })
        = Recipe.cuisine { cuisine := "mexican" }
      ∧ asciiToLower (Recipe.dietaryPreference { cuisine := "mexican" })
        = Recipe.dietaryPreference { cuisine := "mexican" }) := by
  refine ⟨?_, ?_, ?_⟩
  · exact C6_amended.1 "\x7b\"cuisine\":\"TAcos\"\x7d" { cuisine := "tacos" } rfl
  · exact C6_amended.2.1
      ⟨fun _ => Except.ok "A bowl of soup", fun _ _ _ => Except.ok "\x7b\x7d"⟩
      [2] "KETO" "Thai" { cuisine := "Thai", dietaryPreference := "KETO" } rfl
  · exact C6_amended.2.2
      ⟨fun _ => Except.ok "u", fun _ _ _ => Except.ok "\x7b\"cuisine\":\"MEXICAN\"\x7d"⟩
      [2] "d" "c" { cuisine := "mexican" } rfl

/-- The recipe phase reports exactly the classification pair it was given. -/
theorem uploadAfterClassify_classification (deps : UploadDeps) (s : StoreState)
    (imageData : ImageBytes) (imageHash dietaryPreference cuisine : String)
    (isFood : Bool) (description : String) (ev : List CallEvent) :
    (uploadAfterClassify deps s imageData imageHash dietaryPreference cuisine
        isFood description ev).classification = some (isFood, description) := by
  unfold uploadAfterClassify
  cases isFood with
  | false => rfl
  | true =>
    simp only [Bool.not_true, Bool.false_eq_true, if_false]
    cases deps.getRecipeErr with
    | some e2 =>
      by_cases hd : errIsDeadline e2 = true
      · simp only [hd, if_true]
      · simp only [hd, Bool.false_eq_true, if_false]
    | none =>
      cases getRecipeByImageHash s imageHash with
      | some r2 => rfl
      | none =>
        cases deps.generateRecipe imageData dietaryPreference cuisine with
        | error e =>
          by_cases hd : errIsDeadline e = true
          · simp only [hd, if_true]
          · simp only [hd, Bool.false_eq_true, if_false]
            by_cases hn : errIsNotFood e = true
            · simp only [hn, if_true]
            · simp only [hn, Bool.false_eq_true, if_false]
        | ok r0 =>
          cases deps.saveImage with
          | error m => rfl
          | ok p =>
            simp only
            cases deps.saveRecipeErr with
            | some e =>
              by_cases hd : errIsDeadline e = true
              · simp only [hd, if_true]
              · simp only [hd, Bool.false_eq_true, if_false]
            | none => rfl

/-- The recipe phase appends to the given trace and never appends a classify
call. -/
theorem uploadAfterClassify_events_shape (deps : UploadDeps) (s : StoreState)
    (imageData : ImageBytes) (imageHash dietaryPreference cuisine : String)
    (isFood : Bool) (description : String) (ev : List CallEvent) :
    ∃ tail, (uploadAfterClassify deps s imageData imageHash dietaryPreference cuisine
        isFood description ev).events = ev ++ tail
      ∧ CallEvent.classifyCall ∉ tail := by
  unfold uploadAfterClassify
  cases isFood with
  | false => exact ⟨[.saveNonFoodImageCall], rfl, by simp⟩
  | true =>
    simp only [Bool.not_true, Bool.false_eq_true, if_false]
    cases deps.getRecipeErr with
    | some e2 =>
      by_cases hd : errIsDeadline e2 = true
      · simp only [hd, if_true]
        exact ⟨[.getRecipeCall imageHash], rfl, by simp⟩
      · simp only [hd, Bool.false_eq_true, if_false]
        exact ⟨[.getRecipeCall imageHash], rfl, by simp⟩
    | none =>
      cases getRecipeByImageHash s imageHash with
      | some r2 => exact ⟨[.getRecipeCall imageHash], rfl, by simp⟩
      | none =>
        cases deps.generateRecipe imageData dietaryPreference cuisine with
        | error e =>
          by_cases hd : errIsDeadline e = true
          · simp only [hd, if_true]
            exact ⟨[.getRecipeCall imageHash,
                    .generateRecipeCall dietaryPreference cuisine], rfl, by simp⟩
          · simp only [hd, Bool.false_eq_true, if_false]
            by_cases hn : errIsNotFood e = true
            · simp only [hn, if_true]
              exact ⟨[.getRecipeCall imageHash,
                      .generateRecipeCall dietaryPreference cuisine], rfl, by simp⟩
            · simp only [hn, Bool.false_eq_true, if_false]
              exact ⟨[.getRecipeCall imageHash,
                      .generateRecipeCall dietaryPreference cuisine], rfl, by simp⟩
        | ok r0 =>
          cases deps.saveImage with
          | error m =>
            exact ⟨[.getRecipeCall imageHash,
                    .generateRecipeCall dietaryPreference cuisine], rfl, by simp⟩
          | ok p =>
            simp only
            cases deps.saveRecipeErr with
            | some e =>
              by_cases hd : errIsDeadline e = true
              · simp only [hd, if_true]
                refine ⟨_, by rw [List.append_assoc], by simp⟩
              · simp only [hd, Bool.false_eq_true, if_false]
                refine ⟨_, by rw [List.append_assoc], by simp⟩
            | none =>
              refine ⟨_, by rw [List.append_assoc], by simp⟩

/-! ## Claim C2 -/

/-- C2.  With a persisted classification (non-empty stored description) for
the fingerprint, a resolution never invokes the provider's classify
operation, and the `isFood` value it proceeds with is the "no"-prefix rule
applied to the stored description. -/
theorem C2_cached_classification (deps : UploadDeps) (s : StoreState)
    (img : ImageBytes) (dietaryPreference cuisine desc : String)
    (hme : deps.getMetadataErr = none)
    (hdesc : getImageMetadata s (generateImageHash img) = desc)
    (hne : desc ≠ "") :
    CallEvent.classifyCall ∉ (upload deps s img dietaryPreference cuisine).events
    ∧ (upload deps s img dietaryPreference cuisine).classification
        = some (deriveIsFood desc, desc) := by
  unfold upload
  rw [hme]
  simp only [hdesc, if_neg hne]
  constructor
  · obtain ⟨tail, hev, hniltail⟩ := uploadAfterClassify_events_shape deps s img
      (generateImageHash img) dietaryPreference cuisine (deriveIsFood desc) desc []
    rw [hev]
    simpa using hniltail
  · exact uploadAfterClassify_classification deps s img (generateImageHash img)
      dietaryPreference cuisine (deriveIsFood desc) desc []

/-- C2, witness: a cached description "A hearty stew" short-circuits the
provider and derives `isFood = true`. -/
theorem C2_cached_classification_witness :
    CallEvent.classifyCall ∉
      (upload
        { isFoodImage := fun _ => Except.error (ProvErr.msg "should not be called"),
          generateRecipe := fun _ _ _ => Except.error (ProvErr.msg "down"),
          getMetadataErr := none, saveMetadataErr := none,
          getRecipeErr := none, saveRecipeErr := none,
          saveNonFood := Except.ok "p", saveImage := Except.ok "p" }
        ⟨[("50", "A hearty stew")], []⟩ [80] "vegan" "thai").events
    ∧ (upload
        { isFoodImage := fun _ => Except.error (ProvErr.msg "should not be called"),
          generateRecipe := fun _ _ _ => Except.error (ProvErr.msg "down"),
          getMetadataErr := none, saveMetadataErr := none,
          getRecipeErr := none, saveRecipeErr := none,
          saveNonFood := Except.ok "p", saveImage := Except.ok "p" }
        ⟨[("50", "A hearty stew")], []⟩ [80] "vegan" "thai").classification
      = some (deriveIsFood "A hearty stew", "A hearty stew") := by
  exact C2_cached_classification
    { isFoodImage := fun _ => Except.error (ProvErr.msg "should not be called"),
      generateRecipe := fun _ _ _ => Except.error (ProvErr.msg "down"),
      getMetadataErr := none, saveMetadataErr := none,
      getRecipeErr := none, saveRecipeErr := none,
      saveNonFood := Except.ok "p", saveImage := Except.ok "p" }
    ⟨[("50", "A hearty stew")], []⟩ [80] "vegan" "thai" "A hearty stew"
    rfl rfl (by decide)

/-! ## Claim C7 -/

/-- C7.  When the cached classification derives `isFood = false`, the run
returns the rejection outcome, never calls `GenerateRecipe`, and leaves the
store untouched — for every possible outcome of the best-effort non-food
archiving, whose failure is only logged (the conclusion holds for all values
of `deps.saveNonFood`). -/
theorem C7_cached_notFood (deps : UploadDeps) (s : StoreState)
    (img : ImageBytes) (dietaryPreference cuisine desc : String)
    (hme : deps.getMetadataErr = none)
    (hdesc : getImageMetadata s (generateImageHash img) = desc)
    (hne : desc ≠ "")
    (hnf : deriveIsFood desc = false) :
    (upload deps s img dietaryPreference cuisine).resp = Response.okNotFood
    ∧ (∀ d2 c2, CallEvent.generateRecipeCall d2 c2 ∉
        (upload deps s img dietaryPreference cuisine).events)
    ∧ (upload deps s img dietaryPreference cuisine).state = s := by
  unfold upload
  rw [hme]
  simp only [hdesc, if_neg hne, hnf]
  unfold uploadAfterClassify
  simp only [Bool.not_false, if_true]
  exact ⟨by trivial, fun d2 c2 => by simp, by trivial⟩

/-- C7, witness: cached "no dishes, just a laptop" is rejected without any
recipe-generation call, also when the archive write fails. -/
theorem C7_cached_notFood_witness :
    (upload
      { isFoodImage := fun _ => Except.error (ProvErr.msg "unused"),
        generateRecipe := fun _ _ _ => Except.error (ProvErr.msg "unused"),
        getMetadataErr := none, saveMetadataErr := none,
        getRecipeErr := none, saveRecipeErr := none,
        saveNonFood := Except.error "disk full", saveImage := Except.ok "p" }
      ⟨[("50", "no dishes, just a laptop")], []⟩ [80] "" "").resp
    = Response.okNotFood := by
  exact (C7_cached_notFood
    { isFoodImage := fun _ => Except.error (ProvErr.msg "unused"),
      generateRecipe := fun _ _ _ => Except.error (ProvErr.msg "unused"),
      getMetadataErr := none, saveMetadataErr := none,
      getRecipeErr := none, saveRecipeErr := none,
      saveNonFood := Except.error "disk full", saveImage := Except.ok "p" }
    ⟨[("50", "no dishes, just a laptop")], []⟩ [80] "" "" "no dishes, just a laptop"
    rfl rfl (by decide) (by decide)).1

/-! ## Claim C9 -/

/-- C9.  The pipeline treats a cached classification as present exactly when
the stored description is non-empty: the provider's classify operation is
invoked in a run iff the stored description for the fingerprint is the empty
string; and a persisted empty description reads back exactly like an absent
row. -/
theorem C9_empty_description_is_miss (deps : UploadDeps) (s : StoreState)
    (img : ImageBytes) (dietaryPreference cuisine : String)
    (hme : deps.getMetadataErr = none) :
    (CallEvent.classifyCall ∈ (upload deps s img dietaryPreference cuisine).events
      ↔ getImageMetadata s (generateImageHash img) = "")
    ∧ ∀ (meta : List (String × String)) (rec : List (String × Recipe)) (h : String),
        getImageMetadata ⟨assocUpsert meta h "", rec⟩ h = "" := by
  constructor
  · unfold upload
    rw [hme]
    simp only
    by_cases hmiss : getImageMetadata s (generateImageHash img) = ""
    · rw [if_pos hmiss]
      cases hcl : deps.isFoodImage img with
      | error e => simpa using hmiss
      | ok p =>
        obtain ⟨b, desc⟩ := p
        simp only
        constructor
        · intro _; exact hmiss
        · intro _
          obtain ⟨tail, hev, _⟩ := uploadAfterClassify_events_shape deps
            (match deps.saveMetadataErr with
              | some _ => s
              | none => saveImageMetadataState s (generateImageHash img) desc)
            img (generateImageHash img) dietaryPreference cuisine b desc
            [CallEvent.classifyCall,
             CallEvent.saveImageMetadataCall (generateImageHash img) desc]
          rw [hev]
          simp
    · rw [if_neg hmiss]
      obtain ⟨tail, hev, hnotail⟩ := uploadAfterClassify_events_shape deps s img
        (generateImageHash img) dietaryPreference cuisine
        (deriveIsFood (getImageMetadata s (generateImageHash img)))
        (getImageMetadata s (generateImageHash img)) []
      rw [hev]
      constructor
      · intro hmem
        exact absurd (by simpa using hmem) hnotail
      · intro he; exact absurd he hmiss
  · intro meta rec h
    unfold getImageMetadata
    rw [assocLookup_upsert_self]

/-- C9, witness: with an empty stored description the provider is classified
again; the first conjunct is evaluated at a concrete miss state. -/
theorem C9_empty_description_is_miss_witness :
    (CallEvent.classifyCall ∈
        (upload
          { isFoodImage := fun _ => Except.ok (true, "A bowl of ramen"),
            generateRecipe := fun _ _ _ => Except.error (ProvErr.msg "down"),
            getMetadataErr := none, saveMetadataErr := none,
            getRecipeErr := none, saveRecipeErr := none,
            saveNonFood := Except.ok "p", saveImage := Except.ok "p" }
          ⟨[("50", "")], []⟩ [80] "" "").events
      ↔ getImageMetadata ⟨[("50", "")], []⟩ (generateImageHash [80]) = "")
    ∧ ∀ (meta : List (String × String)) (rec : List (String × Recipe)) (h : String),
        getImageMetadata ⟨assocUpsert meta h "", rec⟩ h = "" := by
  exact C9_empty_description_is_miss
    { isFoodImage := fun _ => Except.ok (true, "A bowl of ramen"),
      generateRecipe := fun _ _ _ => Except.error (ProvErr.msg "down"),
      getMetadataErr := none, saveMetadataErr := none,
      getRecipeErr := none, saveRecipeErr := none,
      saveNonFood := Except.ok "p", saveImage := Except.ok "p" }
    ⟨[("50", "")], []⟩ [80] "" "" rfl

/-! ## Claim C4 -/

/-- C4, counterexample.  The claim asserts a deadline expiry during the
classification stage yields a distinguished timeout response.  In the code the
`IsFoodImage` error branch (handler.go:126-129) performs no
`context.DeadlineExceeded` check: with a cache miss and a classify call that
fails with the deadline error, the pipeline returns the generic 500
internal-error response (`Response.internalError`), not the distinguished
`Response.requestTimeout` used by the later stages. -/
theorem C4_counterexample :
    (upload
      { isFoodImage := fun _ => Except.error ProvErr.deadlineExceeded,
        generateRecipe := fun _ _ _ => Except.error (ProvErr.msg "unused"),
        getMetadataErr := none, saveMetadataErr := none,
        getRecipeErr := none, saveRecipeErr := none,
        saveNonFood := Except.ok "p", saveImage := Except.ok "p" }
      ⟨[], []⟩ [5] "" "").resp
    = Response.internalError "gemini err: context deadline exceeded" := by
  rfl

/-- C4, amended.  When the shared deadline elapses during the classification
stage (the classify call fails with the deadline error on a cache miss), the
pipeline returns the generic internal-error response wrapping the deadline
message — not the distinguished timeout response — and no recipe generation is
attempted. -/
theorem C4_amended (deps : UploadDeps) (s : StoreState) (img : ImageBytes)
    (dietaryPreference cuisine : String) (e : ProvErr)
    (hme : deps.getMetadataErr = none)
    (hmiss : getImageMetadata s (generateImageHash img) = "")
    (hcl : deps.isFoodImage img = Except.error e)
    (_hdl : errIsDeadline e = true) :
    (upload deps s img dietaryPreference cuisine).resp
      = Response.internalError ("gemini err: " ++ errString e)
    ∧ (∀ m, (upload deps s img dietaryPreference cuisine).resp
        ≠ Response.requestTimeout m)
    ∧ ∀ d2 c2, CallEvent.generateRecipeCall d2 c2 ∉
        (upload deps s img dietaryPreference cuisine).events := by
  unfold upload
  rw [hme]
  simp only [hmiss, if_pos rfl, hcl]
  exact ⟨by trivial, fun m => by simp, fun d2 c2 => by simp⟩

/-- C4, witness for the amended claim at a concrete deadline expiry. -/
theorem C4_amended_witness :
    (upload
      { isFoodImage := fun _ => Except.error ProvErr.deadlineExceeded,
        generateRecipe := fun _ _ _ => Except.error (ProvErr.msg "unused"),
        getMetadataErr := none, saveMetadataErr := none,
        getRecipeErr := none, saveRecipeErr := none,
        saveNonFood := Except.ok "p", saveImage := Except.ok "p" }
      ⟨[], []⟩ [5] "x" "y").resp
      = Response.internalError ("gemini err: " ++ errString ProvErr.deadlineExceeded)
    ∧ (∀ m, (upload
        { isFoodImage := fun _ => Except.error ProvErr.deadlineExceeded,
          generateRecipe := fun _ _ _ => Except.error (ProvErr.msg "unused"),
          getMetadataErr := none, saveMetadataErr := none,
          getRecipeErr := none, saveRecipeErr := none,
          saveNonFood := Except.ok "p", saveImage := Except.ok "p" }
        ⟨[], []⟩ [5] "x" "y").resp ≠ Response.requestTimeout m)
    ∧ ∀ d2 c2, CallEvent.generateRecipeCall d2 c2 ∉
        (upload
          { isFoodImage := fun _ => Except.error ProvErr.deadlineExceeded,
            generateRecipe := fun _ _ _ => Except.error (ProvErr.msg "unused"),
            getMetadataErr := none, saveMetadataErr := none,
            getRecipeErr := none, saveRecipeErr := none,
            saveNonFood := Except.ok "p", saveImage := Except.ok "p" }
          ⟨[], []⟩ [5] "x" "y").events := by
  exact C4_amended
    { isFoodImage := fun _ => Except.error ProvErr.deadlineExceeded,
      generateRecipe := fun _ _ _ => Except.error (ProvErr.msg "unused"),
      getMetadataErr := none, saveMetadataErr := none,
      getRecipeErr := none, saveRecipeErr := none,
      saveNonFood := Except.ok "p", saveImage := Except.ok "p" }
    ⟨[], []⟩ [5] "x" "y" ProvErr.deadlineExceeded rfl rfl rfl rfl

/-- The recipe phase's response, trace and classification depend on the store
state only through the recipes table (the metadata table is not read after
classification) and on the collaborators only through the fields it reads
(the metadata-save outcome is not read after classification). -/
theorem uploadAfterClassify_congr (deps1 deps2 : UploadDeps) (s1 s2 : StoreState)
    (imageData : ImageBytes) (imageHash dietaryPreference cuisine : String)
    (isFood : Bool) (description : String) (ev : List CallEvent)
    (hg : deps1.getRecipeErr = deps2.getRecipeErr)
    (hgen : deps1.generateRecipe = deps2.generateRecipe)
    (hsi : deps1.saveImage = deps2.saveImage)
    (hsr : deps1.saveRecipeErr = deps2.saveRecipeErr)
    (h : s1.recipes = s2.recipes) :
    (uploadAfterClassify deps1 s1 imageData imageHash dietaryPreference cuisine
        isFood description ev).resp
      = (uploadAfterClassify deps2 s2 imageData imageHash dietaryPreference cuisine
        isFood description ev).resp
    ∧ (uploadAfterClassify deps1 s1 imageData imageHash dietaryPreference cuisine
        isFood description ev).events
      = (uploadAfterClassify deps2 s2 imageData imageHash dietaryPreference cuisine
        isFood description ev).events
    ∧ (uploadAfterClassify deps1 s1 imageData imageHash dietaryPreference cuisine
        isFood description ev).classification
      = (uploadAfterClassify deps2 s2 imageData imageHash dietaryPreference cuisine
        isFood description ev).classification := by
  have hlk : getRecipeByImageHash s1 imageHash = getRecipeByImageHash s2 imageHash := by
    unfold getRecipeByImageHash
    rw [h]
  unfold uploadAfterClassify
  simp only [hg, hgen, hsi, hsr, hlk]
  cases isFood with
  | false => exact ⟨by trivial, by trivial, by trivial⟩
  | true =>
    simp only [Bool.not_true, Bool.false_eq_true, if_false]
    cases deps2.getRecipeErr with
    | some e2 =>
      by_cases hd : errIsDeadline e2 = true
      · simp only [hd, if_true]
        exact ⟨by trivial, by trivial, by trivial⟩
      · simp only [hd, Bool.false_eq_true, if_false]
        exact ⟨by trivial, by trivial, by trivial⟩
    | none =>
      simp only [hlk]
      cases getRecipeByImageHash s2 imageHash with
      | some r2 => exact ⟨by trivial, by trivial, by trivial⟩
      | none =>
        cases deps2.generateRecipe imageData dietaryPreference cuisine with
        | error e =>
          by_cases hd : errIsDeadline e = true
          · simp only [hd, if_true]
            exact ⟨by trivial, by trivial, by trivial⟩
          · simp only [hd, Bool.false_eq_true, if_false]
            by_cases hn : errIsNotFood e = true
            · simp only [hn, if_true]
              exact ⟨by trivial, by trivial, by trivial⟩
            · simp only [hn, Bool.false_eq_true, if_false]
              exact ⟨by trivial, by trivial, by trivial⟩
        | ok r0 =>
          cases deps2.saveImage with
          | error m => exact ⟨by trivial, by trivial, by trivial⟩
          | ok p =>
            simp only
            cases deps2.saveRecipeErr with
            | some e =>
              by_cases hd : errIsDeadline e = true
              · simp only [hd, if_true]
                exact ⟨by trivial, by trivial, by trivial⟩
              · simp only [hd, Bool.false_eq_true, if_false]
                exact ⟨by trivial, by trivial, by trivial⟩
            | none => exact ⟨by trivial, by trivial, by trivial⟩

/-! ## Claim C8 -/

/-- C8.  First conjunct: a failure of the write-through persistence of the
classification is swallowed — a run whose `SaveImageMetadata` fails has the
same response and the same classification result as the identical run whose
save succeeds.  Second conjunct: a failure to persist a newly generated recipe
is fatal — the run returns the timeout or internal-error response produced by
the `SaveRecipe` error branch, never a recipe, and persists nothing. -/
theorem C8_persistence_policy :
    (∀ (deps deps2 : UploadDeps) (s : StoreState) (img : ImageBytes)
        (dietaryPreference cuisine : String) (e : ProvErr) (b : Bool) (desc : String),
      deps.getMetadataErr = none →
      getImageMetadata s (generateImageHash img) = "" →
      deps.isFoodImage img = Except.ok (b, desc) →
      deps.saveMetadataErr = some e →
      deps2.saveMetadataErr = none →
      deps2.isFoodImage = deps.isFoodImage →
      deps2.generateRecipe = deps.generateRecipe →
      deps2.getMetadataErr = deps.getMetadataErr →
      deps2.getRecipeErr = deps.getRecipeErr →
      deps2.saveRecipeErr = deps.saveRecipeErr →
      deps2.saveImage = deps.saveImage →
      (upload deps s img dietaryPreference cuisine).resp
        = (upload deps2 s img dietaryPreference cuisine).resp
      ∧ (upload deps s img dietaryPreference cuisine).classification
        = (upload deps2 s img dietaryPreference cuisine).classification)
    ∧ (∀ (deps : UploadDeps) (s : StoreState) (img : ImageBytes)
        (dietaryPreference cuisine desc path : String) (e : ProvErr) (r0 : Recipe),
      deps.getMetadataErr = none →
      getImageMetadata s (generateImageHash img) = desc →
      desc ≠ "" →
      deriveIsFood desc = true →
      deps.getRecipeErr = none →
      getRecipeByImageHash s (generateImageHash img) = none →
      deps.generateRecipe img dietaryPreference cuisine = Except.ok r0 →
      deps.saveImage = Except.ok path →
      deps.saveRecipeErr = some e →
      (upload deps s img dietaryPreference cuisine).resp
        = (if errIsDeadline e then
            Response.requestTimeout "Database save timed out after 2 seconds"
          else
            Response.internalError ("failed to save recipe: " ++ errString e))
      ∧ (∀ r, (upload deps s img dietaryPreference cuisine).resp ≠ Response.okRecipe r)
      ∧ (upload deps s img dietaryPreference cuisine).state.recipes = s.recipes) := by
  constructor
  · intro deps deps2 s img dietaryPreference cuisine e b desc hme hmiss hcl hsm hsm2
      hcl2 hgen2 hme2 hge2 hsr2 hsi2
    unfold upload
    rw [hme, hme2, hme]
    simp only [hmiss, if_pos rfl, hcl2, hcl, hsm, hsm2]
    have hcongr := uploadAfterClassify_congr deps deps2 s
      (saveImageMetadataState s (generateImageHash img) desc) img
      (generateImageHash img) dietaryPreference cuisine b desc
      [CallEvent.classifyCall,
       CallEvent.saveImageMetadataCall (generateImageHash img) desc]
      hge2.symm hgen2.symm hsi2.symm hsr2.symm rfl
    exact ⟨hcongr.1, hcongr.2.2⟩
  · intro deps s img dietaryPreference cuisine desc path e r0 hme hdesc hne hfood
      hge hlk hgen hsi hsr
    unfold upload
    rw [hme]
    simp only [hdesc, if_neg hne, hfood]
    unfold uploadAfterClassify
    simp only [hfood, Bool.not_true, Bool.false_eq_true, if_false, hge, hlk, hgen,
      hsi, hsr]
    by_cases hd : errIsDeadline e = true
    · simp only [hd, if_true]
      exact ⟨by trivial, fun r => by simp, by trivial⟩
    · simp only [hd, Bool.false_eq_true, if_false]
      exact ⟨by trivial, fun r => by simp, by trivial⟩

/-- C8, witness: a swallowed metadata-save failure leaves response and
classification identical to the successful-save run, and a recipe-save failure
is surfaced as the fatal save error. -/
theorem C8_persistence_policy_witness :
    ((upload
        { isFoodImage := fun _ => Except.ok (true, "A pie"),
          generateRecipe := fun _ _ _ => Except.error (ProvErr.msg "down"),
          getMetadataErr := none, saveMetadataErr := some (ProvErr.msg "db down"),
          getRecipeErr := none, saveRecipeErr := none,
          saveNonFood := Except.ok "p", saveImage := Except.ok "p" }
        ⟨[], []⟩ [80] "" "").resp
      = (upload
        { isFoodImage := fun _ => Except.ok (true, "A pie"),
          generateRecipe := fun _ _ _ => Except.error (ProvErr.msg "down"),
          getMetadataErr := none, saveMetadataErr := none,
          getRecipeErr := none, saveRecipeErr := none,
          saveNonFood := Except.ok "p", saveImage := Except.ok "p" }
        ⟨[], []⟩ [80] "" "").resp
    ∧ (upload
        { isFoodImage := fun _ => Except.ok (true, "A pie"),
          generateRecipe := fun _ _ _ => Except.error (ProvErr.msg "down"),
          getMetadataErr := none, saveMetadataErr := some (ProvErr.msg "db down"),
          getRecipeErr := none, saveRecipeErr := none,
          saveNonFood := Except.ok "p", saveImage := Except.ok "p" }
        ⟨[], []⟩ [80] "" "").classification
      = (upload
        { isFoodImage := fun _ => Except.ok (true, "A pie"),
          generateRecipe := fun _ _ _ => Except.error (ProvErr.msg "down"),
          getMetadataErr := none, saveMetadataErr := none,
          getRecipeErr := none, saveRecipeErr := none,
          saveNonFood := Except.ok "p", saveImage := Except.ok "p" }
        ⟨[], []⟩ [80] "" "").classification)
    ∧ ((upload
        { isFoodImage := fun _ => Except.error (ProvErr.msg "unused"),
          generateRecipe := fun _ _ _ => Except.ok {},
          getMetadataErr := none, saveMetadataErr := none,
          getRecipeErr := none, saveRecipeErr := some (ProvErr.msg "db down"),
          saveNonFood := Except.ok "p", saveImage := Except.ok "p" }
        ⟨[("50", "A pie")], []⟩ [80] "" "").resp
      = (if errIsDeadline (ProvErr.msg "db down") then
          Response.requestTimeout "Database save timed out after 2 seconds"
        else
          Response.internalError
            ("failed to save recipe: " ++ errString (ProvErr.msg "db down")))
      ∧ (∀ r, (upload
          { isFoodImage := fun _ => Except.error (ProvErr.msg "unused"),
            generateRecipe := fun _ _ _ => Except.ok {},
            getMetadataErr := none, saveMetadataErr := none,
            getRecipeErr := none, saveRecipeErr := some (ProvErr.msg "db down"),
            saveNonFood := Except.ok "p", saveImage := Except.ok "p" }
          ⟨[("50", "A pie")], []⟩ [80] "" "").resp ≠ Response.okRecipe r)
      ∧ (upload
          { isFoodImage := fun _ => Except.error (ProvErr.msg "unused"),
            generateRecipe := fun _ _ _ => Except.ok {},
            getMetadataErr := none, saveMetadataErr := none,
            getRecipeErr := none, saveRecipeErr := some (ProvErr.msg "db down"),
            saveNonFood := Except.ok "p", saveImage := Except.ok "p" }
          ⟨[("50", "A pie")], []⟩ [80] "" "").state.recipes
        = (⟨[("50", "A pie")], []⟩ : StoreState).recipes) := by
  constructor
  · exact C8_persistence_policy.1
      { isFoodImage := fun _ => Except.ok (true, "A pie"),
        generateRecipe := fun _ _ _ => Except.error (ProvErr.msg "down"),
        getMetadataErr := none, saveMetadataErr := some (ProvErr.msg "db down"),
        getRecipeErr := none, saveRecipeErr := none,
        saveNonFood := Except.ok "p", saveImage := Except.ok "p" }
      { isFoodImage := fun _ => Except.ok (true, "A pie"),
        generateRecipe := fun _ _ _ => Except.error (ProvErr.msg "down"),
        getMetadataErr := none, saveMetadataErr := none,
        getRecipeErr := none, saveRecipeErr := none,
        saveNonFood := Except.ok "p", saveImage := Except.ok "p" }
      ⟨[], []⟩ [80] "" "" (ProvErr.msg "db down") true "A pie"
      rfl rfl rfl rfl rfl rfl rfl rfl rfl rfl rfl
  · exact C8_persistence_policy.2
      { isFoodImage := fun _ => Except.error (ProvErr.msg "unused"),
        generateRecipe := fun _ _ _ => Except.ok {},
        getMetadataErr := none, saveMetadataErr := none,
        getRecipeErr := none, saveRecipeErr := some (ProvErr.msg "db down"),
        saveNonFood := Except.ok "p", saveImage := Except.ok "p" }
      ⟨[("50", "A pie")], []⟩ [80] "" "" "A pie" "p" (ProvErr.msg "db down") {}
      rfl rfl (by decide) (by decide) rfl rfl rfl rfl rfl

/-- The recipe phase never touches the metadata table. -/
theorem uploadAfterClassify_metadata_const (deps : UploadDeps) (s : StoreState)
    (imageData : ImageBytes) (imageHash dietaryPreference cuisine : String)
    (isFood : Bool) (description : String) (ev : List CallEvent) :
    (uploadAfterClassify deps s imageData imageHash dietaryPreference cuisine
        isFood description ev).state.metadata = s.metadata := by
  unfold uploadAfterClassify
  cases isFood with
  | false => rfl
  | true =>
    simp only [Bool.not_true, Bool.false_eq_true, if_false]
    cases deps.getRecipeErr with
    | some e2 =>
      by_cases hd : errIsDeadline e2 = true
      · simp only [hd, if_true]
      · simp only [hd, Bool.false_eq_true, if_false]
    | none =>
      cases getRecipeByImageHash s imageHash with
      | some r2 => rfl
      | none =>
        cases deps.generateRecipe imageData dietaryPreference cuisine with
        | error e =>
          by_cases hd : errIsDeadline e = true
          · simp only [hd, if_true]
          · simp only [hd, Bool.false_eq_true, if_false]
            by_cases hn : errIsNotFood e = true
            · simp only [hn, if_true]
            · simp only [hn, Bool.false_eq_true, if_false]
        | ok r0 =>
          cases deps.saveImage with
          | error m => rfl
          | ok p =>
            simp only
            cases deps.saveRecipeErr with
            | some e =>
              by_cases hd : errIsDeadline e = true
              · simp only [hd, if_true]
              · simp only [hd, Bool.false_eq_true, if_false]
            | none => rfl

/-- Inversion of a successful recipe phase: the classification was food, the
recipe lookup did not fail, and the returned recipe is cached in the resulting
state under the fingerprint. -/
theorem uploadAfterClassify_okRecipe_inv (deps : UploadDeps) (s : StoreState)
    (imageData : ImageBytes) (imageHash dietaryPreference cuisine : String)
    (isFood : Bool) (description : String) (ev : List CallEvent) (r : Recipe)
    (h : (uploadAfterClassify deps s imageData imageHash dietaryPreference cuisine
        isFood description ev).resp = Response.okRecipe r) :
    isFood = true ∧ deps.getRecipeErr = none
    ∧ getRecipeByImageHash (uploadAfterClassify deps s imageData imageHash
        dietaryPreference cuisine isFood description ev).state imageHash = some r := by
  unfold uploadAfterClassify at h ⊢
  cases isFood with
  | false => simp at h
  | true =>
    simp only [Bool.not_true, Bool.false_eq_true, if_false] at h ⊢
    cases hge : deps.getRecipeErr with
    | some e2 =>
      try rw [hge] at h
      try rw [hge]
      by_cases hd : errIsDeadline e2 = true
      · simp [hd] at h
      · simp [hd] at h
    | none =>
      try rw [hge] at h
      try rw [hge]
      cases hlk : getRecipeByImageHash s imageHash with
      | some r2 =>
        try rw [hlk] at h
        try rw [hlk]
        simp only [Response.okRecipe.injEq] at h
        subst h
        exact ⟨by trivial, by trivial, by simp⟩
      | none =>
        try rw [hlk] at h
        try rw [hlk]
        cases hgen : deps.generateRecipe imageData dietaryPreference cuisine with
        | error e =>
          try rw [hgen] at h
          by_cases hd : errIsDeadline e = true
          · simp [hd] at h
          · by_cases hn : errIsNotFood e = true
            · simp [hd, hn] at h
            · simp [hd, hn] at h
        | ok r0 =>
          try rw [hgen] at h
          try rw [hgen]
          cases hsi : deps.saveImage with
          | error m =>
            try rw [hsi] at h
            simp at h
          | ok p =>
            try rw [hsi] at h
            try rw [hsi]
            simp only at h ⊢
            cases hsr : deps.saveRecipeErr with
            | some e =>
              try rw [hsr] at h
              by_cases hd : errIsDeadline e = true
              · simp [hd] at h
              · simp [hd] at h
            | none =>
              try rw [hsr] at h
              try rw [hsr]
              simp only [Response.okRecipe.injEq] at h
              subst h
              refine ⟨by trivial, by trivial, ?_⟩
              unfold saveRecipeState getRecipeByImageHash
              simp only
              exact assocLookup_upsert_self _ _ _

/-- `GetImageMetadata` depends only on the metadata table. -/
theorem getImageMetadata_congr (s1 s2 : StoreState) (imageHash : String)
    (h : s1.metadata = s2.metadata) :
    getImageMetadata s1 imageHash = getImageMetadata s2 imageHash := by
  unfold getImageMetadata
  rw [h]

/-- Inversion of a successful `Upload` run: both store reads succeeded, the
returned recipe is cached under the fingerprint in the resulting state, and
the resulting state's classification either is a cached description deriving
food, or is still absent while the provider classifies the image as food. -/
theorem upload_okRecipe_inv (deps : UploadDeps) (s : StoreState) (img : ImageBytes)
    (dietaryPreference cuisine : String) (r : Recipe)
    (hcons : ∀ b desc, deps.isFoodImage img = Except.ok (b, desc) → b = deriveIsFood desc)
    (h : (upload deps s img dietaryPreference cuisine).resp = Response.okRecipe r) :
    deps.getMetadataErr = none ∧ deps.getRecipeErr = none
    ∧ getRecipeByImageHash (upload deps s img dietaryPreference cuisine).state
        (generateImageHash img) = some r
    ∧ ((getImageMetadata (upload deps s img dietaryPreference cuisine).state
          (generateImageHash img) ≠ ""
        ∧ deriveIsFood (getImageMetadata (upload deps s img dietaryPreference cuisine).state
            (generateImageHash img)) = true)
      ∨ (getImageMetadata (upload deps s img dietaryPreference cuisine).state
          (generateImageHash img) = ""
        ∧ ∃ desc, deps.isFoodImage img = Except.ok (true, desc))) := by
  unfold upload at h ⊢
  cases hme : deps.getMetadataErr with
  | some e =>
    try rw [hme] at h
    simp at h
  | none =>
    try rw [hme] at h
    try rw [hme]
    simp only at h ⊢
    by_cases hmiss : getImageMetadata s (generateImageHash img) = ""
    · rw [if_pos hmiss] at h ⊢
      cases hcl : deps.isFoodImage img with
      | error e =>
        try rw [hcl] at h
        simp at h
      | ok p =>
        obtain ⟨b, desc⟩ := p
        try rw [hcl] at h
        try rw [hcl]
        simp only at h ⊢
        cases hsm : deps.saveMetadataErr with
        | some e4 =>
          try rw [hsm] at h
          try rw [hsm]
          obtain ⟨hb, hge, hlkr⟩ := uploadAfterClassify_okRecipe_inv deps s img
            (generateImageHash img) dietaryPreference cuisine b desc
            [CallEvent.classifyCall,
             CallEvent.saveImageMetadataCall (generateImageHash img) desc] r h
          subst hb
          refine ⟨by trivial, hge, hlkr, Or.inr ⟨?_, desc, by simp [hcl]⟩⟩
          rw [getImageMetadata_congr _ s _
            (uploadAfterClassify_metadata_const deps s img (generateImageHash img)
              dietaryPreference cuisine true desc _)]
          exact hmiss
        | none =>
          try rw [hsm] at h
          try rw [hsm]
          obtain ⟨hb, hge, hlkr⟩ := uploadAfterClassify_okRecipe_inv deps
            (saveImageMetadataState s (generateImageHash img) desc) img
            (generateImageHash img) dietaryPreference cuisine b desc
            [CallEvent.classifyCall,
             CallEvent.saveImageMetadataCall (generateImageHash img) desc] r h
          subst hb
          have hmv : getImageMetadata (uploadAfterClassify deps
              (saveImageMetadataState s (generateImageHash img) desc) img
              (generateImageHash img) dietaryPreference cuisine true desc
              [CallEvent.classifyCall,
               CallEvent.saveImageMetadataCall (generateImageHash img) desc]).state
              (generateImageHash img) = desc := by
            rw [getImageMetadata_congr _
              (saveImageMetadataState s (generateImageHash img) desc) _
              (uploadAfterClassify_metadata_const deps _ img (generateImageHash img)
                dietaryPreference cuisine true desc _)]
            unfold getImageMetadata saveImageMetadataState
            simp only
            rw [assocLookup_upsert_self]
          by_cases hd0 : desc = ""
          · exact ⟨by trivial, hge, hlkr, Or.inr ⟨by rw [hmv, hd0], desc, by simp [hcl]⟩⟩
          · refine ⟨by trivial, hge, hlkr, Or.inl ⟨by rw [hmv]; exact hd0, ?_⟩⟩
            rw [hmv]
            exact (hcons true desc hcl).symm
    · rw [if_neg hmiss] at h ⊢
      obtain ⟨hb, hge, hlkr⟩ := uploadAfterClassify_okRecipe_inv deps s img
        (generateImageHash img) dietaryPreference cuisine
        (deriveIsFood (getImageMetadata s (generateImageHash img)))
        (getImageMetadata s (generateImageHash img)) [] r h
      refine ⟨by trivial, hge, hlkr, Or.inl ⟨?_, ?_⟩⟩
      · rw [getImageMetadata_congr _ s _
          (uploadAfterClassify_metadata_const deps s img (generateImageHash img)
            dietaryPreference cuisine _ _ _)]
        exact hmiss
      · rw [getImageMetadata_congr _ s _
          (uploadAfterClassify_metadata_const deps s img (generateImageHash img)
            dietaryPreference cuisine _ _ _)]
        exact hb

/-- A run against a state whose classification resolves to food and whose
recipes table caches the fingerprint returns the cached recipe, makes no
recipe-generation call, and leaves the recipes table unchanged. -/
theorem upload_cachedFood_returns (deps : UploadDeps) (s1 : StoreState)
    (img : ImageBytes) (dietaryPreference cuisine : String) (r : Recipe)
    (hme : deps.getMetadataErr = none)
    (hge : deps.getRecipeErr = none)
    (hrec : getRecipeByImageHash s1 (generateImageHash img) = some r)
    (hclass : (getImageMetadata s1 (generateImageHash img) ≠ ""
        ∧ deriveIsFood (getImageMetadata s1 (generateImageHash img)) = true)
      ∨ (getImageMetadata s1 (generateImageHash img) = ""
        ∧ ∃ desc, deps.isFoodImage img = Except.ok (true, desc))) :
    (upload deps s1 img dietaryPreference cuisine).resp = Response.okRecipe r
    ∧ (∀ d2 c2, CallEvent.generateRecipeCall d2 c2 ∉
        (upload deps s1 img dietaryPreference cuisine).events)
    ∧ (upload deps s1 img dietaryPreference cuisine).state.recipes = s1.recipes := by
  unfold upload
  rw [hme]
  simp only
  cases hclass with
  | inl hcached =>
    obtain ⟨hne, hrule⟩ := hcached
    rw [if_neg hne]
    unfold uploadAfterClassify
    simp only [hrule, Bool.not_true, Bool.false_eq_true, if_false, hge, hrec]
    exact ⟨by trivial, fun d2 c2 => by simp, by trivial⟩
  | inr hmissing =>
    obtain ⟨hmz, desc, hcl⟩ := hmissing
    rw [if_pos hmz, hcl]
    simp only
    cases hsm : deps.saveMetadataErr with
    | some e4 =>
      unfold uploadAfterClassify
      simp only [Bool.not_true, Bool.false_eq_true, if_false, hge, hrec]
      exact ⟨by trivial, fun d2 c2 => by simp, by trivial⟩
    | none =>
      unfold uploadAfterClassify
      have hrec2 : getRecipeByImageHash
          (saveImageMetadataState s1 (generateImageHash img) desc)
          (generateImageHash img) = some r := hrec
      simp only [Bool.not_true, Bool.false_eq_true, if_false, hge, hrec2]
      exact ⟨by trivial, fun d2 c2 => by simp, by trivial⟩

/-! ## Claim C3 -/

/-- C3.  After a first run returns a recipe (so the fingerprint has a cached
recipe), a second run with the identical bytes and any `dietaryPreference` /
`cuisine` parameters returns that first recipe unchanged, never calls the
provider's `generateRecipe`, and leaves the stored recipes untouched: the
recipe cache is keyed solely by the fingerprint.  The hypothesis `hcons` is
the classify/rule consistency that the cloud client's `IsFoodImage` provides
(proved as `geminiIsFoodImage_rule_consistent`). -/
theorem C3_recipe_cache_by_fingerprint (deps : UploadDeps) (s0 : StoreState)
    (img : ImageBytes) (d1 c1 d2 c2 : String) (r : Recipe)
    (hcons : ∀ b desc, deps.isFoodImage img = Except.ok (b, desc) → b = deriveIsFood desc)
    (h1 : (upload deps s0 img d1 c1).resp = Response.okRecipe r) :
    (upload deps (upload deps s0 img d1 c1).state img d2 c2).resp = Response.okRecipe r
    ∧ (∀ d c, CallEvent.generateRecipeCall d c ∉
        (upload deps (upload deps s0 img d1 c1).state img d2 c2).events)
    ∧ (upload deps (upload deps s0 img d1 c1).state img d2 c2).state.recipes
      = (upload deps s0 img d1 c1).state.recipes := by
  obtain ⟨hme, hge, hrec, hclass⟩ := upload_okRecipe_inv deps s0 img d1 c1 r hcons h1
  exact upload_cachedFood_returns deps (upload deps s0 img d1 c1).state img d2 c2 r
    hme hge hrec hclass

/-- C3, witness: a concrete first run caches the generated recipe; the second
run with different dietary/cuisine parameters returns it unchanged. -/
theorem C3_recipe_cache_by_fingerprint_witness :
    (upload
        { isFoodImage := fun _ => Except.ok (true, "A tasty dish"),
          generateRecipe := fun _ _ _ => Except.ok { title := "X" },
          getMetadataErr := none, saveMetadataErr := none,
          getRecipeErr := none, saveRecipeErr := none,
          saveNonFood := Except.ok "q", saveImage := Except.ok "images/x.png" }
        (upload
          { isFoodImage := fun _ => Except.ok (true, "A tasty dish"),
            generateRecipe := fun _ _ _ => Except.ok { title := "X" },
            getMetadataErr := none, saveMetadataErr := none,
            getRecipeErr := none, saveRecipeErr := none,
            saveNonFood := Except.ok "q", saveImage := Except.ok "images/x.png" }
          ⟨[], []⟩ [1, 2] "vegan" "Italian").state [1, 2] "keto" "FRENCH").resp
      = Response.okRecipe
          { imageHash := "0102", title := "X", imagePath := "images/x.png" }
    ∧ (∀ d c, CallEvent.generateRecipeCall d c ∉
        (upload
          { isFoodImage := fun _ => Except.ok (true, "A tasty dish"),
            generateRecipe := fun _ _ _ => Except.ok { title := "X" },
            getMetadataErr := none, saveMetadataErr := none,
            getRecipeErr := none, saveRecipeErr := none,
            saveNonFood := Except.ok "q", saveImage := Except.ok "images/x.png" }
          (upload
            { isFoodImage := fun _ => Except.ok (true, "A tasty dish"),
              generateRecipe := fun _ _ _ => Except.ok { title := "X" },
              getMetadataErr := none, saveMetadataErr := none,
              getRecipeErr := none, saveRecipeErr := none,
              saveNonFood := Except.ok "q", saveImage := Except.ok "images/x.png" }
            ⟨[], []⟩ [1, 2] "vegan" "Italian").state [1, 2] "keto" "FRENCH").events)
    ∧ (upload
        { isFoodImage := fun _ => Except.ok (true, "A tasty dish"),
          generateRecipe := fun _ _ _ => Except.ok { title := "X" },
          getMetadataErr := none, saveMetadataErr := none,
          getRecipeErr := none, saveRecipeErr := none,
          saveNonFood := Except.ok "q", saveImage := Except.ok "images/x.png" }
        (upload
          { isFoodImage := fun _ => Except.ok (true, "A tasty dish"),
            generateRecipe := fun _ _ _ => Except.ok { title := "X" },
            getMetadataErr := none, saveMetadataErr := none,
            getRecipeErr := none, saveRecipeErr := none,
            saveNonFood := Except.ok "q", saveImage := Except.ok "images/x.png" }
          ⟨[], []⟩ [1, 2] "vegan" "Italian").state [1, 2] "keto" "FRENCH").state.recipes
      = (upload
          { isFoodImage := fun _ => Except.ok (true, "A tasty dish"),
            generateRecipe := fun _ _ _ => Except.ok { title := "X" },
            getMetadataErr := none, saveMetadataErr := none,
            getRecipeErr := none, saveRecipeErr := none,
            saveNonFood := Except.ok "q", saveImage := Except.ok "images/x.png" }
          ⟨[], []⟩ [1, 2] "vegan" "Italian").state.recipes := by
  exact C3_recipe_cache_by_fingerprint
    { isFoodImage := fun _ => Except.ok (true, "A tasty dish"),
      generateRecipe := fun _ _ _ => Except.ok { title := "X" },
      getMetadataErr := none, saveMetadataErr := none,
      getRecipeErr := none, saveRecipeErr := none,
      saveNonFood := Except.ok "q", saveImage := Except.ok "images/x.png" }
    ⟨[], []⟩ [1, 2] "vegan" "Italian" "keto" "FRENCH"
    { imageHash := "0102", title := "X", imagePath := "images/x.png" }
    (by
      intro b desc h
      injection h with h2
      injection h2 with hb hd
      subst hb
      subst hd
      decide)
    rfl
